import Mathlib

/-!
Verification of the seqrenamer repository (FASTA/delimited/GFF3 id renaming
tool) against its natural-language specification.

The Python sources under src/seqrenamer are shallowly embedded below:
pure functions become Lean functions, the stateful generator pipelines become
explicit state passing, fallible code returns Except, and file handles are
modelled as the text (or list of lines) they accumulate.  Python dictionaries
are modelled as association lists with first-match lookup, and Python
machine-level details (bytes, SHA1 words) are modelled with Nat arithmetic
taken mod 2 ^ 32 where overflow matters.
-/

set_option maxRecDepth 10000

namespace Seqrenamer

/-- Python-level failures raised by the embedded code.  The constructors
mirror the exception classes of src/seqrenamer/exceptions.py plus the
built-in Python exceptions the code can raise. -/
inductive PyErr where
  | valueError (msg : String)
  | attributeError (msg : String)
  | runtimeError (msg : String)
  | stopIteration
  | invalidArgumentError (msg : String)
  | mapFileParseError (msg : String)
  | mapFileKeyError (msg : String)
  | xsvColumnNumberError (msg : String)
  deriving Repr, DecidableEq

/-- A single-quote character as a string, used to build Python error
messages that quote their arguments. -/
def sq : String := String.singleton (Char.ofNat 39)

/-- ASCII whitespace recognized by Python str.strip (space, tab, newline,
carriage return, vertical tab, form feed). -/
def isPyWs (c : Char) : Bool :=
  c == ' ' || c == '\t' || c == '\n' || c == '\r' || c == '\x0b' || c == '\x0c'

/-- Drop trailing characters satisfying p (helper for strip/rstrip). -/
def dropTrailingWhile (p : Char → Bool) (l : List Char) : List Char :=
  (l.reverse.dropWhile p).reverse

/-- Python str.strip() on a list of characters. -/
def stripChars (l : List Char) : List Char :=
  dropTrailingWhile isPyWs (l.dropWhile isPyWs)

/-- Python str.strip() on strings. -/
def pyStrip (s : String) : String := String.mk (stripChars s.data)

/-- Python str.split("\t") on a list of characters: split on every tab,
keeping empty fields. -/
def splitTab : List Char → List (List Char)
  | [] => [[]]
  | c :: rest =>
    if c = '\t' then [] :: splitTab rest
    else
      match splitTab rest with
      | [] => [[c]]
      | h :: t => (c :: h) :: t

/-- Python str.split("\t") on strings. -/
def pySplitTab (s : String) : List String := (splitTab s.data).map String.mk

/-- Split a list into consecutive chunks of n + 1 elements (the successor
argument keeps the recursion well-founded); models Python slicing loops
such as range(0, len(x), step). -/
def chunksOfFuel (n : Nat) : Nat → List α → List (List α)
  | _, [] => []
  | 0, x :: xs => [x :: xs]
  | fuel + 1, x :: xs => (x :: xs.take n) :: chunksOfFuel n fuel (xs.drop n)

/-- Split a list into consecutive chunks of n + 1 elements, structurally
recursive on a fuel bounded by the list length. -/
def chunksOf (n : Nat) (l : List α) : List (List α) :=
  chunksOfFuel n l.length l

/-! ## Checksum model

src/seqrenamer/seq.py, Seq.checksum: the seguid checksum is
base64(sha1(seq bytes)) with trailing padding stripped.  The Python code
delegates to hashlib.sha1 and base64.b64encode; both are reimplemented
here over Nat arithmetic mod 2 ^ 32 so the embedding stays executable.
The only fact the claims use is that the checksum is computed from the
sequence bytes alone, which holds for any faithful digest. -/

/-- UTF-8 encoding of one character as byte values (models str.encode). -/
def utf8Bytes (c : Char) : List Nat :=
  let n := c.toNat
  if n < 0x80 then [n]
  else if n < 0x800 then
    [0xC0 ||| (n >>> 6), 0x80 ||| (n &&& 0x3F)]
  else if n < 0x10000 then
    [0xE0 ||| (n >>> 12), 0x80 ||| ((n >>> 6) &&& 0x3F), 0x80 ||| (n &&& 0x3F)]
  else
    [0xF0 ||| (n >>> 18), 0x80 ||| ((n >>> 12) &&& 0x3F),
     0x80 ||| ((n >>> 6) &&& 0x3F), 0x80 ||| (n &&& 0x3F)]

/-- The UTF-8 bytes of a string (models Python str.encode()). -/
def strBytes (s : String) : List Nat := (s.data.map utf8Bytes).flatten

/-- Truncation to 32 bits. -/
def m32 (n : Nat) : Nat := n % 4294967296

/-- Left rotation within 32 bits. -/
def rotl32 (k x : Nat) : Nat := m32 (x <<< k) ||| (x >>> (32 - k))

/-- SHA1 message padding: append 0x80, zero bytes to 56 mod 64, then the
bit length as 8 big-endian bytes. -/
def sha1Pad (msg : List Nat) : List Nat :=
  let l := msg.length
  let zeros := (119 - l % 64) % 64
  let bitLen := 8 * l
  msg ++ [0x80] ++ List.replicate zeros 0 ++
    [(bitLen >>> 56) % 256, (bitLen >>> 48) % 256, (bitLen >>> 40) % 256,
     (bitLen >>> 32) % 256, (bitLen >>> 24) % 256, (bitLen >>> 16) % 256,
     (bitLen >>> 8) % 256, bitLen % 256]

/-- Big-endian 32-bit words from groups of four bytes. -/
def bytesToWords : List Nat → List Nat
  | b0 :: b1 :: b2 :: b3 :: rest =>
    (((b0 <<< 24) ||| (b1 <<< 16)) ||| ((b2 <<< 8) ||| b3)) :: bytesToWords rest
  | _ => []

/-- Extend 16 message words to the 80 words of the SHA1 schedule. -/
def sha1Extend (w : Array Nat) : Array Nat :=
  Nat.fold (fun _ (acc : Array Nat) =>
    let i := acc.size
    acc.push (rotl32 1 ((acc.getD (i - 3) 0 ^^^ acc.getD (i - 8) 0) ^^^
      (acc.getD (i - 14) 0 ^^^ acc.getD (i - 16) 0)))) 64 w

/-- One SHA1 round. -/
def sha1Round (w : Array Nat) (i : Nat) (st : Nat × Nat × Nat × Nat × Nat) :
    Nat × Nat × Nat × Nat × Nat :=
  let (a, b, c, d, e) := st
  let fk :=
    if i < 20 then ((b &&& c) ||| ((4294967295 - b) &&& d), 0x5A827999)
    else if i < 40 then ((b ^^^ c) ^^^ d, 0x6ED9EBA1)
    else if i < 60 then (((b &&& c) ||| (b &&& d)) ||| (c &&& d), 0x8F1BBCDC)
    else ((b ^^^ c) ^^^ d, 0xCA62C1D6)
  let temp := m32 (rotl32 5 a + fk.1 + e + fk.2 + w.getD i 0)
  (temp, a, rotl32 30 b, c, d)

/-- Process one 64-byte block, updating the five hash words. -/
def sha1Block (h : Nat × Nat × Nat × Nat × Nat) (block : List Nat) :
    Nat × Nat × Nat × Nat × Nat :=
  let w := sha1Extend (List.toArray (bytesToWords block))
  let (a, b, c, d, e) := Nat.fold (sha1Round w) 80 h
  let (h0, h1, h2, h3, h4) := h
  (m32 (h0 + a), m32 (h1 + b), m32 (h2 + c), m32 (h3 + d), m32 (h4 + e))

/-- SHA1 digest of a byte list as 20 bytes. -/
def sha1 (msg : List Nat) : List Nat :=
  let blocks := chunksOf 63 (sha1Pad msg)
  let (h0, h1, h2, h3, h4) :=
    blocks.foldl sha1Block
      (0x67452301, 0xEFCDAB89, 0x98BADCFE, 0x10325476, 0xC3D2E1F0)
  [h0, h1, h2, h3, h4].flatMap fun h =>
    [(h >>> 24) % 256, (h >>> 16) % 256, (h >>> 8) % 256, h % 256]

/-- The base64 alphabet. -/
def b64Alphabet : List Char :=
  "ABCDEFGHIJKLMNOPQRSTUVWXYZabcdefghijklmnopqrstuvwxyz0123456789+/".data

/-- One base64 output character. -/
def b64Char (n : Nat) : Char := b64Alphabet.getD n 'A'

/-- Base64 encoding of a byte list, with padding (models base64.b64encode). -/
def b64Encode : List Nat → List Char
  | [] => []
  | [b1] => [b64Char (b1 >>> 2), b64Char ((b1 &&& 3) <<< 4), '=', '=']
  | [b1, b2] =>
    [b64Char (b1 >>> 2), b64Char (((b1 &&& 3) <<< 4) ||| (b2 >>> 4)),
     b64Char ((b2 &&& 15) <<< 2), '=']
  | b1 :: b2 :: b3 :: rest =>
    b64Char (b1 >>> 2) :: b64Char (((b1 &&& 3) <<< 4) ||| (b2 >>> 4)) ::
    b64Char (((b2 &&& 15) <<< 2) ||| (b3 >>> 6)) :: b64Char (b3 &&& 63) ::
    b64Encode rest

/-! ## The Seq data model (src/seqrenamer/seq.py) -/

/-- A FASTA record: Seq.__init__ stores an id, an optional description and
the sequence (bytes, modelled as the string they decode to). -/
structure Seq where
  id : String
  desc : Option String
  seq : String
  deriving Repr, DecidableEq

/-- Seq.checksum: base64 of the SHA1 of the sequence bytes, with trailing
"=" padding stripped. -/
def Seq.checksum (s : Seq) : String :=
  String.mk (dropTrailingWhile (fun c => c == '=') (b64Encode (sha1 (strBytes s.seq))))

/-- Seq.__str__: header line then the sequence wrapped at 60 characters per
line, joined with newlines and one trailing newline. -/
def Seq.str (s : Seq) : String :=
  let header :=
    match s.desc with
    | none => ">" ++ s.id
    | some d => ">" ++ s.id ++ " " ++ d
  String.intercalate "\n" (header :: (chunksOf 59 s.seq.data).map String.mk) ++ "\n"

/-- Seq.rstrip: strip the given characters from the end of the sequence. -/
def Seq.rstrip (chars : List Char) (s : Seq) : Seq :=
  { s with seq := String.mk (dropTrailingWhile (fun c => chars.contains c) s.seq.data) }

/-- Seq.upper: uppercase the sequence. -/
def Seq.upper (s : Seq) : Seq :=
  { s with seq := String.mk (s.seq.data.map Char.toUpper) }

/-- Seq._split_id_line: requires a leading ">", then splits at most once on
the first space; a missing description yields none, an empty remainder
after the space yields some "". -/
def Seq.splitIdLine (line : String) : Except PyErr (String × Option String) :=
  match line.data with
  | c :: rest =>
    if c = '>' then
      let hd := rest.takeWhile (fun x => x != ' ')
      match rest.dropWhile (fun x => x != ' ') with
      | [] => .ok (String.mk hd, none)
      | _ :: d => .ok (String.mk hd, some (String.mk d))
    else
      .error (.valueError ("Encountered malformed fasta header. Offending line is " ++
        sq ++ line ++ sq))
  | [] =>
    .error (.valueError ("Encountered malformed fasta header. Offending line is " ++
      sq ++ line ++ sq))

/-- Seq.read: parse one FASTA record from its lines.  next() on an empty
iterable raises StopIteration; a ValueError from the header split is
re-raised with the "Fasta parsing failed. " message prefix.  The body is
the concatenation of the stripped remaining lines. -/
def Seq.read (lines : List String) : Except PyErr Seq :=
  match lines with
  | [] => .error .stopIteration
  | l :: rest =>
    match Seq.splitIdLine (pyStrip l) with
    | .error (.valueError m) => .error (.valueError ("Fasta parsing failed. " ++ m))
    | .error e => .error e
    | .ok (id_, desc) => .ok ⟨id_, desc, String.join (rest.map pyStrip)⟩

/-- Seq.read as called from inside the Seq.parse generator: under PEP 479 a
StopIteration escaping into a generator body becomes a RuntimeError. -/
def Seq.readInGen (lines : List String) : Except PyErr Seq :=
  match Seq.read lines with
  | .error .stopIteration => .error (.runtimeError "generator raised StopIteration")
  | r => r

/-- Loop body of Seq.parse: accumulate lines of the current record, start a
new record at each ">" line (dropping anything before the first header),
skip comment lines, and read the final block unconditionally at
end-of-input. -/
def Seq.parseAux (comment : String) (first : Bool) (current : List String) :
    List String → Except PyErr (List Seq)
  | [] => do
    let s ← Seq.readInGen current
    .ok [s]
  | line :: rest =>
    if line.startsWith ">" then
      if first then Seq.parseAux comment false [line] rest
      else do
        let s ← Seq.readInGen current
        let tail ← Seq.parseAux comment first [line] rest
        .ok (s :: tail)
    else if line.startsWith comment then
      Seq.parseAux comment first current rest
    else
      Seq.parseAux comment first (current ++ [line]) rest

/-- Seq.parse: parse a multi-FASTA line stream (comment default ";"). -/
def Seq.parse (comment : String) (lines : List String) : Except PyErr (List Seq) :=
  Seq.parseAux comment true [] lines

/-- Seq.parse_many: concatenation of per-file parses.  Note the source
passes the literal comment ";" to Seq.parse, ignoring its own comment
parameter (seq.py line 198); the model does the same. -/
def Seq.parseMany (_comment : String) (handles : List (List String)) :
    Except PyErr (List Seq) :=
  handles.foldlM (fun acc h => do
    let s ← Seq.parse ";" h
    pure (acc ++ s)) []

/-! ## Python dict model -/

/-- Lookup in an association list modelling a Python dict (insertions are
consed on the front; keys are never inserted twice, so first-match lookup
agrees with dict semantics). -/
def dlookup {α : Type} [DecidableEq α] (l : List (α × String)) (k : α) : Option String :=
  match l with
  | [] => none
  | (k', v) :: rest => if k = k' then some v else dlookup rest k

/-! ## The rename transforms (src/seqrenamer/seq.py, src/seqrenamer/xsv.py)

The Python id_conv callables close over a mutable IdConverter; the model
threads an explicit generator state σ through gen : σ → String × σ. -/

/-- Id-map entry of SeqReId in id mode: (new_id, old_id, old description). -/
abbrev EntryR := String × String × Option String

/-- Id-map entry of SeqReId in desc mode: (new_desc, old_desc, old id). -/
abbrev EntryRD := String × Option String × String

/-- Id-map entry of SeqDeduplicated in id mode:
(new_id, old_id, checksum, old description). -/
abbrev EntryD := String × String × String × Option String

/-- SeqReId._filter_id.  On a repeated id the source evaluates self.seen,
an attribute that does not exist (the dict is the local variable seen), so
the run raises AttributeError at the second occurrence of an id. -/
def SeqReId.filterIdAux {σ : Type} (gen : σ → String × σ)
    (seen : List (String × String)) (st : σ) :
    List Seq → Except PyErr (List Seq × List EntryR × σ)
  | [] => .ok ([], [], st)
  | r :: rs =>
    match dlookup seen r.id with
    | some _ =>
      .error (.attributeError ("SeqReId object has no attribute " ++ sq ++ "seen" ++ sq))
    | none =>
      let (nid, st') := gen st
      do
        let (out, entries, stf) ← SeqReId.filterIdAux gen ((r.id, nid) :: seen) st' rs
        .ok (Seq.mk nid r.desc r.seq :: out, (nid, r.id, r.desc) :: entries, stf)

/-- SeqReId._filter_id from an empty seen table. -/
def SeqReId.filterId {σ : Type} (gen : σ → String × σ) (st : σ) (recs : List Seq) :
    Except PyErr (List Seq × List EntryR × σ) :=
  SeqReId.filterIdAux gen [] st recs

/-- SeqReId._filter_desc (this branch uses the local seen correctly). -/
def SeqReId.filterDescAux {σ : Type} (gen : σ → String × σ)
    (seen : List (Option String × String)) (st : σ) :
    List Seq → List Seq × List EntryRD × σ
  | [] => ([], [], st)
  | r :: rs =>
    let p : String × σ × List (Option String × String) :=
      match dlookup seen r.desc with
      | some nd => (nd, st, seen)
      | none =>
        let (nd, st') := gen st
        (nd, st', (r.desc, nd) :: seen)
    let (out, es, stf) := SeqReId.filterDescAux gen p.2.2 p.2.1 rs
    (Seq.mk r.id (some p.1) r.seq :: out, (p.1, r.desc, r.id) :: es, stf)

/-- The dispatch of SeqReId.__init__: the desc filter runs only when the
column argument is literally "desc"; the validated selector "description"
therefore falls into the id branch. -/
inductive ReIdEntries where
  | idMode (es : List EntryR)
  | descMode (es : List EntryRD)
  deriving Repr, DecidableEq

/-- SeqReId construction plus full consumption of its generator. -/
def SeqReId.run {σ : Type} (gen : σ → String × σ) (column : String) (st : σ)
    (recs : List Seq) : Except PyErr (List Seq × ReIdEntries × σ) :=
  if column = "desc" then
    let (out, es, stf) := SeqReId.filterDescAux gen [] st recs
    .ok (out, .descMode es, stf)
  else do
    let (out, es, stf) ← SeqReId.filterId gen st recs
    .ok (out, .idMode es, stf)

/-- SeqDeduplicated._filter_id: records are keyed by content checksum; a
repeated checksum appends a log entry with the already-assigned new id and
drops the record from the output. -/
def SeqDeduplicated.filterIdAux {σ : Type} (gen : σ → String × σ)
    (seen : List (String × String)) (st : σ) :
    List Seq → List Seq × List EntryD × σ
  | [] => ([], [], st)
  | r :: rs =>
    let c := r.checksum
    match dlookup seen c with
    | some nid =>
      let (out, es, stf) := SeqDeduplicated.filterIdAux gen seen st rs
      (out, (nid, r.id, c, r.desc) :: es, stf)
    | none =>
      let (nid, st') := gen st
      let (out, es, stf) := SeqDeduplicated.filterIdAux gen ((c, nid) :: seen) st' rs
      (Seq.mk nid r.desc r.seq :: out, (nid, r.id, c, r.desc) :: es, stf)

/-- SeqDeduplicated._filter_id from an empty seen table. -/
def SeqDeduplicated.filterId {σ : Type} (gen : σ → String × σ) (st : σ)
    (recs : List Seq) : List Seq × List EntryD × σ :=
  SeqDeduplicated.filterIdAux gen [] st recs

/-- One line of SeqReId.flush_ids (id mode): tab-separated new id, old id,
and the old description or "." when it was None. -/
def renderReIdLine (e : EntryR) : String :=
  e.1 ++ "\t" ++ e.2.1 ++ "\t" ++ e.2.2.getD "."

/-- The map-file lines SeqReId.flush_ids would write for a buffer. -/
def renderReIdLines (es : List EntryR) : List String := es.map renderReIdLine

/-- The text SeqReId.flush_ids writes for a buffer (newline per entry). -/
def renderReId (es : List EntryR) : String :=
  String.join ((renderReIdLines es).map (fun l => l ++ "\n"))

/-- One line of SeqDeduplicated.flush_ids: new id, old id, checksum, old
description or ".". -/
def renderDedupLine (e : EntryD) : String :=
  e.1 ++ "\t" ++ e.2.1 ++ "\t" ++ e.2.2.1 ++ "\t" ++ e.2.2.2.getD "."

/-- The text SeqDeduplicated.flush_ids writes for a buffer. -/
def renderDedup (es : List EntryD) : String :=
  String.join ((es.map renderDedupLine).map (fun l => l ++ "\n"))

/-- Xsv._filter_comments: drop lines starting with the comment string. -/
def filterComments (comment : String) (lines : List String) : List String :=
  lines.filter (fun l => !(l.startsWith comment))

/-- The column-out-of-range message of Xsv.replace_ids and decode_xsv. -/
def columnErrMsg (column : Nat) (sep : String) (row : List String) : String :=
  "Could not access column " ++ sq ++ toString column ++ sq ++
    " in a line. The offending line was: " ++ String.intercalate sep row ++ "."

/-- Xsv.replace_ids: when the header flag is set the first row passes
through untouched; afterwards each row has the configured column replaced
through the seen table, appending one (new_id, old_id) log entry per
substituted row; a row without the column raises XsvColumnNumberError
naming the row joined with the separator. -/
def Xsv.replaceIdsAux {σ : Type} (gen : σ → String × σ) (column : Nat) (sep : String)
    (seen : List (String × String)) (st : σ) (header : Bool) :
    List (List String) → Except PyErr (List (List String) × List (String × String) × σ)
  | [] => .ok ([], [], st)
  | row :: rows =>
    if header then do
      let (out, es, stf) ← Xsv.replaceIdsAux gen column sep seen st false rows
      .ok (row :: out, es, stf)
    else
      match row.get? column with
      | none => .error (.xsvColumnNumberError (columnErrMsg column sep row))
      | some oldId =>
        let p : String × σ × List (String × String) :=
          match dlookup seen oldId with
          | some n => (n, st, seen)
          | none =>
            let (n, st') := gen st
            (n, st', (oldId, n) :: seen)
        do
          let (out, es, stf) ← Xsv.replaceIdsAux gen column sep p.2.2 p.2.1 false rows
          .ok (row.set column p.1 :: out, (p.1, oldId) :: es, stf)

/-- Xsv.replace_ids from an empty seen table. -/
def Xsv.replaceIds {σ : Type} (gen : σ → String × σ) (column : Nat) (sep : String)
    (st : σ) (header : Bool) (rows : List (List String)) :
    Except PyErr (List (List String) × List (String × String) × σ) :=
  Xsv.replaceIdsAux gen column sep [] st header rows

/-- One line of Xsv.flush_ids: tab-separated new id and old id. -/
def renderXsvLine (e : String × String) : String := e.1 ++ "\t" ++ e.2

/-- The map-file lines Xsv.flush_ids would write for a buffer. -/
def renderXsvLines (es : List (String × String)) : List String := es.map renderXsvLine

/-- The text Xsv.flush_ids writes for a buffer. -/
def renderXsv (es : List (String × String)) : String :=
  String.join ((renderXsvLines es).map (fun l => l ++ "\n"))

/-! ## The decode side (src/seqrenamer/scripts/decode.py) -/

/-- All values stored for a key, in insertion order: parse_map_file builds
a defaultdict(list) by appending, so a key maps to the list of its values
in file order and a missing key maps to the empty list. -/
def lookupAll (m : List (String × String)) (k : String) : List String :=
  (m.filter (fun p => p.1 == k)).map (fun p => p.2)

/-- parse_map_file: each line is stripped and split on tabs; fields 0 and 1
become a (new_id, old_id) association; a line with fewer than two fields
raises MapFileParseError with the 1-based line number and the raw line. -/
def parseMapFileAux (i : Nat) : List String → Except PyErr (List (String × String))
  | [] => .ok []
  | line :: rest =>
    match pySplitTab (pyStrip line) with
    | a :: b :: _ => do
      let m ← parseMapFileAux (i + 1) rest
      .ok ((a, b) :: m)
    | _ =>
      .error (.mapFileParseError ("Error parsing map file at line " ++ toString i ++
        ". The offending line was: " ++ line))

/-- parse_map_file over the lines of the map file. -/
def parseMapFile (lines : List String) : Except PyErr (List (String × String)) :=
  parseMapFileAux 1 lines

/-- get_from_map.  The map is a defaultdict(list), so indexing a missing
key returns [] instead of raising KeyError: the except-KeyError branch of
the source (and its MapFileKeyError "Key ... is not in map file") is dead
code, and this lookup always succeeds. -/
def getFromMap (m : List (String × String)) (k : String) : Except PyErr (List String) :=
  .ok (lookupAll m k)

/-- get_from_map_single: takes element [0] of the candidate list.  The
IndexError branch fires only when the list is empty (a missing key, since
the map is a defaultdict), and then raises MapFileKeyError with the
multiple-candidates message; a list with several candidates silently
returns the first one. -/
def getFromMapSingle (m : List (String × String)) (k : String) : Except PyErr String :=
  match getFromMap m k with
  | .error e => .error e
  | .ok [] =>
    .error (.mapFileKeyError ("Key " ++ k ++ " is has multiple substitution " ++
      "candidates. For this format we expect only one-to-one mapping."))
  | .ok (v :: _) => .ok v

/-- The field selector produced by check_column: an integer column index
for csv/tsv, a field name for fasta/gff3. -/
inductive Column where
  | idx (n : Nat)
  | name (s : String)
  deriving Repr, DecidableEq

/-- decode_seqs at the record level: for each record, look up the selected
field in the map (a None description indexes the defaultdict and yields
[]) and emit one output record per candidate; a record whose field is not
a key of the map therefore contributes zero output records. -/
def decodeSeqsRecords (m : List (String × String)) (column : Column) :
    List Seq → Except PyErr (List Seq)
  | [] => .ok []
  | s :: ss =>
    if column = .name "description" then do
      let olds ←
        match s.desc with
        | some d => getFromMap m d
        | none => .ok ([] : List String)
      let rest ← decodeSeqsRecords m column ss
      .ok (olds.map (fun od => Seq.mk s.id (some od) s.seq) ++ rest)
    else do
      let olds ← getFromMap m s.id
      let rest ← decodeSeqsRecords m column ss
      .ok (olds.map (fun old => Seq.mk old s.desc s.seq) ++ rest)

/-- decode_xsv at the row level: the first row passes through when the
header flag is set; every other row has the configured column replaced by
the unique map candidate (get_from_map_single); a missing column raises
XsvColumnNumberError. -/
def decodeXsvAux (m : List (String × String)) (column : Nat) (sep : String)
    (header first : Bool) : List (List String) → Except PyErr (List (List String))
  | [] => .ok []
  | row :: rows =>
    if header && first then do
      let rest ← decodeXsvAux m column sep header false rows
      .ok (row :: rest)
    else
      match row.get? column with
      | none => .error (.xsvColumnNumberError (columnErrMsg column sep row))
      | some v => do
        let old ← getFromMapSingle m v
        let rest ← decodeXsvAux m column sep header first rows
        .ok (row.set column old :: rest)

/-- decode_xsv over already-parsed rows. -/
def decodeXsv (m : List (String × String)) (column : Nat) (sep : String)
    (header : Bool) (rows : List (List String)) : Except PyErr (List (List String)) :=
  decodeXsvAux m column sep header true rows

/-! ## The encode side (src/seqrenamer/scripts/encode.py) -/

/-- check_column: csv/tsv take a non-negative integer index (default 0),
fasta takes "id" or "description" (default "id"), gff3 takes "seqid",
"id" or "name" (default "id"); anything else is rejected. -/
def checkColumn (column : Option String) (format : String) : Except PyErr Column :=
  if format = "tsv" ∨ format = "csv" then
    match column with
    | none => .ok (.idx 0)
    | some c =>
      match c.toInt? with
      | none =>
        .error (.invalidArgumentError ("For tsv and csv formats a 0 based index " ++
          "must be used. Could not parse " ++ c ++ " as an integer."))
      | some n =>
        if n < 0 then .error (.invalidArgumentError "Column indices must be >= 0.")
        else .ok (.idx n.toNat)
  else if format = "fasta" then
    match column with
    | none => .ok (.name "id")
    | some c =>
      if c = "id" ∨ c = "description" then .ok (.name c)
      else
        .error (.invalidArgumentError ("For fasta format the column must be " ++
          sq ++ "id" ++ sq ++ " or " ++ sq ++ "description" ++ sq ++ "."))
  else if format = "gff3" then
    match column with
    | none => .ok (.name "id")
    | some c =>
      if c = "seqid" ∨ c = "id" ∨ c = "name" then .ok (.name c)
      else
        .error (.invalidArgumentError ("For gff3 format the column must be " ++
          sq ++ "seqid" ++ sq ++ ", " ++ sq ++ "id" ++ sq ++ ", or " ++
          sq ++ "name" ++ sq ++ "."))
  else .error (.valueError ("This shouldn" ++ sq ++ "t ever happen."))

/-- Modelled from the spec: seqrenamer.id_generator.IdConverter is imported
by encode.py but its module is not under src/.  Per spec section 4.1,
next() returns prefix ++ encode(counter) with the counter starting at 0
and incremented by one per call, where encode is a fixed-radix positional
encoding over a printable, sort-stable alphabet, left-padded with the zero
digit to at least the configured length (the spec scenario prefix "SR",
length 3 gives "SR000" for the first call). -/
structure IdConverter where
  pfx : String
  length : Nat
  counter : Nat
  deriving Repr, DecidableEq

/-- The positional-encoding alphabet (digits then lowercase letters). -/
def idAlphabet : List Char := "0123456789abcdefghijklmnopqrstuvwxyz".data

/-- Fixed-radix digits of a counter, most significant first, structurally
recursive on a fuel bounded by the counter. -/
def encodeCounterAux : Nat → Nat → List Char → List Char
  | _, 0, acc => acc
  | fuel + 1, n + 1, acc =>
    encodeCounterAux fuel ((n + 1) / 36) (idAlphabet.getD ((n + 1) % 36) '0' :: acc)
  | 0, _ + 1, acc => acc

/-- Fixed-radix encoding of a counter (zero encodes as "0"). -/
def encodeCounter (n : Nat) : List Char :=
  if n = 0 then ['0'] else encodeCounterAux n n []

/-- IdConverter.next: the generated id and the advanced generator. -/
def IdConverter.next (c : IdConverter) : String × IdConverter :=
  let digits := encodeCounter c.counter
  let padded := List.replicate (c.length - digits.length) '0' ++ digits
  (c.pfx ++ String.mk padded, { c with counter := c.counter + 1 })

/-- Python line.rstrip("\r\n") as used by join_files. -/
def rstripCRLF (s : String) : String :=
  String.mk (dropTrailingWhile (fun c => c == '\r' || c == '\n') s.data)

/-- join_files: concatenate the files; with the header flag set, drop the
first line of every file after the first.  (The source would raise on an
empty subsequent file via next(); that edge is not modelled.) -/
def joinFiles (header : Bool) : List (List String) → List String
  | [] => []
  | f :: fs =>
    f.map rstripCRLF ++
      (fs.map (fun g => (if header then g.drop 1 else g).map rstripCRLF)).flatten

/-- Modelled from the spec: the csv codec (csv.reader/writer, excel
dialect) is an external collaborator; pending quoting, a line parses as a
plain split on the single-character separator. -/
def csvParseLine (sep : String) (line : String) : List String := line.splitOn sep

/-! ## The streaming encode loops

encode_seqs and encode_xsv interleave pulling one record from the lazy
transform generator with chunked writing: at output index i (1-based) the
output chunk and the id-map buffer are written out when i % 10000 is
truthy, i.e. when i is NOT a multiple of 10000, and once more after the
loop.  The model fuses the generator with the loop, threading the
generator internals (seen table, generator state) together with the loop
state, which is exactly the state the lazy Python pipeline carries. -/

/-- The loop state of encode_seqs in replace mode: generator state, the
seen table and id-map buffer of the SeqReId transform, the 1-based output
record index, the pending output chunk, and the text written so far to the
output and map files. -/
structure EncState (σ : Type) where
  st : σ
  seen : List (String × String)
  i : Nat
  chunk : List String
  buffer : List EntryR
  out : String
  mapOut : String
  deriving Repr

/-- The initial encode_seqs loop state. -/
def encInit {σ : Type} (st0 : σ) : EncState σ :=
  ⟨st0, [], 0, [], [], "", ""⟩

/-- One iteration of the encode_seqs loop in replace mode (column ≠
"desc", hence the _filter_id branch of SeqReId, including its self.seen
AttributeError on a repeated id): generate or fail, append the stringified
record to the chunk and the entry to the buffer, then flush both to the
files when the new index is not a multiple of 10000. -/
def encodeSeqsStep {σ : Type} (gen : σ → String × σ) (dropDesc : Bool)
    (s : EncState σ) (r : Seq) : Except PyErr (EncState σ) :=
  match dlookup s.seen r.id with
  | some _ =>
    .error (.attributeError ("SeqReId object has no attribute " ++ sq ++ "seen" ++ sq))
  | none =>
    let (nid, st') := gen s.st
    let outRec : Seq := ⟨nid, if dropDesc then none else r.desc, r.seq⟩
    let i' := s.i + 1
    let chunk' := s.chunk ++ [outRec.str]
    let buffer' := s.buffer ++ [(nid, r.id, r.desc)]
    if i' % 10000 ≠ 0 then
      .ok ⟨st', (r.id, nid) :: s.seen, i', [], [],
        s.out ++ String.join chunk', s.mapOut ++ renderReId buffer'⟩
    else
      .ok ⟨st', (r.id, nid) :: s.seen, i', chunk', buffer', s.out, s.mapOut⟩

/-- The encode_seqs loop over the first records of the stream. -/
def encodeSeqsLoop {σ : Type} (gen : σ → String × σ) (dropDesc : Bool)
    (st0 : σ) (recs : List Seq) : Except PyErr (EncState σ) :=
  recs.foldlM (encodeSeqsStep gen dropDesc) (encInit st0)

/-- The trailing writes of encode_seqs: the remaining chunk and one final
flush of the id-map buffer. -/
def encodeSeqsFinish {σ : Type} (s : EncState σ) : String × String :=
  (s.out ++ String.join s.chunk, s.mapOut ++ renderReId s.buffer)

/-- encode_seqs in replace mode, from parsed records to the final output
and map-file text. -/
def encodeSeqsReplace {σ : Type} (gen : σ → String × σ) (dropDesc : Bool)
    (st0 : σ) (recs : List Seq) : Except PyErr (String × String) := do
  let s ← encodeSeqsLoop gen dropDesc st0 recs
  .ok (encodeSeqsFinish s)

/-- The loop state of encode_seqs in deduplicate mode. -/
structure EncStateD (σ : Type) where
  st : σ
  seen : List (String × String)
  i : Nat
  chunk : List String
  buffer : List EntryD
  out : String
  mapOut : String
  deriving Repr

/-- One pulled input record of the deduplicate pipeline: a repeated
checksum only appends its log entry to the buffer (the record is dropped,
so the loop index does not advance and no flush check runs); a fresh
checksum is emitted, advancing the loop exactly as in replace mode. -/
def encodeSeqsStepD {σ : Type} (gen : σ → String × σ) (dropDesc : Bool)
    (s : EncStateD σ) (r : Seq) : EncStateD σ :=
  let c := r.checksum
  match dlookup s.seen c with
  | some nid => { s with buffer := s.buffer ++ [(nid, r.id, c, r.desc)] }
  | none =>
    let (nid, st') := gen s.st
    let outRec : Seq := ⟨nid, if dropDesc then none else r.desc, r.seq⟩
    let i' := s.i + 1
    let chunk' := s.chunk ++ [outRec.str]
    let buffer' := s.buffer ++ [(nid, r.id, c, r.desc)]
    if i' % 10000 ≠ 0 then
      ⟨st', (c, nid) :: s.seen, i', [], [],
        s.out ++ String.join chunk', s.mapOut ++ renderDedup buffer'⟩
    else
      ⟨st', (c, nid) :: s.seen, i', chunk', buffer', s.out, s.mapOut⟩

/-- encode_seqs in deduplicate mode. -/
def encodeSeqsDedup {σ : Type} (gen : σ → String × σ) (dropDesc : Bool)
    (st0 : σ) (recs : List Seq) : String × String :=
  let s := recs.foldl (encodeSeqsStepD gen dropDesc) ⟨st0, [], 0, [], [], "", ""⟩
  (s.out ++ String.join s.chunk, s.mapOut ++ renderDedup s.buffer)

/-- encode_seqs: parse all input files, apply the optional rstrip and
uppercase preprocessing, then run the deduplicate or replace pipeline.
The column selector is dispatched inside SeqReId/SeqDeduplicated against
the literal "desc"; since check_column only ever produces "id" or
"description" for fasta, the _filter_id branch always runs, which is what
the fused loops above model. -/
def encodeSeqs {σ : Type} (gen : σ → String × σ) (files : List (List String))
    (_column : Column) (dedup upper : Bool) (strip : Option String)
    (dropDesc : Bool) (st0 : σ) : Except PyErr (String × String) := do
  let seqs ← Seq.parseMany ";" files
  let seqs := match strip with
    | none => seqs
    | some ch => seqs.map (Seq.rstrip ch.data)
  let seqs := if upper then seqs.map Seq.upper else seqs
  if dedup then .ok (encodeSeqsDedup gen dropDesc st0 seqs)
  else encodeSeqsReplace gen dropDesc st0 seqs

/-- The loop state of encode_xsv. -/
structure EncXState (σ : Type) where
  st : σ
  seen : List (String × String)
  i : Nat
  buffer : List (String × String)
  headerPending : Bool
  outRows : List (List String)
  mapOut : String
  deriving Repr

/-- One iteration of the encode_xsv loop: a pending header row passes
through unchanged (still counted and still triggering the flush check);
other rows go through the Xsv.replace_ids substitution. -/
def encodeXsvStep {σ : Type} (gen : σ → String × σ) (column : Nat) (sep : String)
    (s : EncXState σ) (row : List String) : Except PyErr (EncXState σ) :=
  if s.headerPending then
    let i' := s.i + 1
    if i' % 10000 ≠ 0 then
      .ok ⟨s.st, s.seen, i', [], false, s.outRows ++ [row], s.mapOut ++ renderXsv s.buffer⟩
    else
      .ok ⟨s.st, s.seen, i', s.buffer, false, s.outRows ++ [row], s.mapOut⟩
  else
    match row.get? column with
    | none => .error (.xsvColumnNumberError (columnErrMsg column sep row))
    | some oldId =>
      let p : String × σ × List (String × String) :=
        match dlookup s.seen oldId with
        | some n => (n, s.st, s.seen)
        | none =>
          let (n, st') := gen s.st
          (n, st', (oldId, n) :: s.seen)
      let i' := s.i + 1
      let buffer' := s.buffer ++ [(p.1, oldId)]
      if i' % 10000 ≠ 0 then
        .ok ⟨p.2.1, p.2.2, i', [], false,
          s.outRows ++ [row.set column p.1], s.mapOut ++ renderXsv buffer'⟩
      else
        .ok ⟨p.2.1, p.2.2, i', buffer', false,
          s.outRows ++ [row.set column p.1], s.mapOut⟩

/-- encode_xsv: join the files, drop comment lines, parse rows, run the
substitution loop, and flush the buffer once more at end-of-stream. -/
def encodeXsv {σ : Type} (gen : σ → String × σ) (files : List (List String))
    (column : Nat) (comment : String) (header : Bool) (sep : String) (st0 : σ) :
    Except PyErr (List (List String) × String) := do
  let lines := joinFiles header files
  let rows := (filterComments comment lines).map (csvParseLine sep)
  let s ← rows.foldlM (encodeXsvStep gen column sep)
    (⟨st0, [], 0, [], header, [], ""⟩ : EncXState σ)
  .ok (s.outRows, s.mapOut ++ renderXsv s.buffer)

/-- The output of an encode run: output text plus map text for fasta,
output rows plus map text for delimited formats. -/
inductive EncodeOutput where
  | fasta (out mapOut : String)
  | xsv (rows : List (List String)) (mapOut : String)
  deriving Repr

/-- encode: validate the column for the (explicitly given) format and
dispatch on the format.  check_format returns an explicit format unchanged
(encode.py line 255), so it is elided here.  There is no gff3 branch: a
gff3 encode run falls through to the bare ValueError. -/
def encode {σ : Type} (gen : σ → String × σ) (format : String)
    (columnArg : Option String) (dedup upper header dropDesc : Bool)
    (strip : Option String) (comment : String) (st0 : σ)
    (files : List (List String)) : Except PyErr EncodeOutput := do
  let column ← checkColumn columnArg format
  if format = "fasta" then do
    let (o, m) ← encodeSeqs gen files column dedup upper strip dropDesc st0
    .ok (.fasta o m)
  else if format = "csv" ∨ format = "tsv" then do
    let n := match column with
      | .idx n => n
      | .name _ => 0
    let (rows, m) ← encodeXsv gen files n comment header
      (if format = "csv" then "," else "\t") st0
    .ok (.xsv rows m)
  else .error (.valueError ("This shouldn" ++ sq ++ "t happen"))

/-! ## Statement-side vocabulary

Definitions used only to state properties of the embedded code. -/

/-- The generator state after n calls. -/
def genIter {σ : Type} (gen : σ → String × σ) (st : σ) : Nat → σ
  | 0 => st
  | n + 1 => genIter gen (gen st).2 n

/-- The n-th id produced by a generator (0-based). -/
def genAt {σ : Type} (gen : σ → String × σ) (st : σ) (n : Nat) : String :=
  (gen (genIter gen st n)).1

/-- A default record for total list indexing in statements. -/
def seqDflt : Seq := ⟨"", none, ""⟩

/-- A field value free of tabs, newlines and carriage returns, so that it
survives one tab-separated map-file line intact. -/
def cleanField (s : String) : Bool :=
  s.data.all (fun c => c != '\t' && c != '\n' && c != '\r')

/-- A generated id that parses back from the head of a map-file line:
nonempty, not starting with strippable whitespace, and tab/newline free. -/
def cleanNewId (s : String) : Bool :=
  !s.data.isEmpty && !isPyWs (s.data.headD 'x') && cleanField s

/-- A description column that keeps its line intact under the trailing
strip: newline free, nonempty as written (None renders as "."), and not
ending in strippable whitespace. -/
def cleanDescCol (d : Option String) : Bool :=
  let t := d.getD "."
  t.data.all (fun c => c != '\n' && c != '\r') && !t.data.isEmpty &&
    !isPyWs (t.data.getLastD 'x')

/-- A default id-map entry for total list indexing (dedup shape). -/
def entryDDflt : EntryD := ("", "", "", none)

/-- The id-map entry the replace-mode pipeline produces for the i-th input
record (with pairwise-distinct ids, the generator is called once per
record in order). -/
def reIdEntrySpec {σ : Type} (gen : σ → String × σ) (st0 : σ) (recs : List Seq)
    (i : Nat) : EntryR :=
  (genAt gen st0 i, (recs.getD i seqDflt).id, (recs.getD i seqDflt).desc)

/-- The serialized output record the replace-mode pipeline produces for
the i-th input record. -/
def reIdStrSpec {σ : Type} (gen : σ → String × σ) (st0 : σ) (dropDesc : Bool)
    (recs : List Seq) (i : Nat) : String :=
  (Seq.mk (genAt gen st0 i)
    (if dropDesc then none else (recs.getD i seqDflt).desc)
    (recs.getD i seqDflt).seq).str

/-- The seen table after the first k records (most recent first). -/
def seenSpec {σ : Type} (gen : σ → String × σ) (st0 : σ) (recs : List Seq)
    (k : Nat) : List (String × String) :=
  ((List.range k).map (fun i => ((recs.getD i seqDflt).id, genAt gen st0 i))).reverse

/-- How many of the first k records have already been written to the
files: all of them, except that a record index that is a multiple of
10000 leaves its own record pending (the i % 10000 truthiness check skips
the flush exactly there). -/
def flushedCount (k : Nat) : Nat :=
  if k % 10000 = 0 ∧ k ≠ 0 then k - 1 else k

/-- Closed form of the encode_seqs replace-mode loop state after the
first k records. -/
def encStateSpec {σ : Type} (gen : σ → String × σ) (st0 : σ) (dropDesc : Bool)
    (recs : List Seq) (k : Nat) : EncState σ :=
  ⟨genIter gen st0 k, seenSpec gen st0 recs k, k,
   if k % 10000 = 0 ∧ k ≠ 0 then [reIdStrSpec gen st0 dropDesc recs (k - 1)] else [],
   if k % 10000 = 0 ∧ k ≠ 0 then [reIdEntrySpec gen st0 recs (k - 1)] else [],
   String.join ((List.range (flushedCount k)).map (reIdStrSpec gen st0 dropDesc recs)),
   renderReId ((List.range (flushedCount k)).map (reIdEntrySpec gen st0 recs))⟩

/-- A default id-map entry for total list indexing (replace shape). -/
def entryRDflt : EntryR := ("", "", none)

/-- The record list the FASTA replace-mode filter emits for
pairwise-distinct original ids. -/
def reIdOutSpec {σ : Type} (gen : σ → String × σ) (st0 : σ) (recs : List Seq) :
    List Seq :=
  (List.range recs.length).map (fun i =>
    Seq.mk (genAt gen st0 i) (recs.getD i seqDflt).desc (recs.getD i seqDflt).seq)

/-- The id-map entries the FASTA replace-mode filter logs for
pairwise-distinct original ids. -/
def reIdEntriesSpec {σ : Type} (gen : σ → String × σ) (st0 : σ) (recs : List Seq) :
    List EntryR :=
  (List.range recs.length).map (reIdEntrySpec gen st0 recs)

/-- The (new id, old id) pairs the decode side parses back from the
replace-mode map file. -/
def reIdPairsSpec {σ : Type} (gen : σ → String × σ) (st0 : σ) (recs : List Seq) :
    List (String × String) :=
  (reIdEntriesSpec gen st0 recs).map (fun e => (e.1, e.2.1))

/-- The original value in the configured column of the i-th row. -/
def xsvOldSpec (rows : List (List String)) (column : Nat) (i : Nat) : String :=
  (rows.getD i []).getD column ""

/-- The rows the delimited replace-mode substitution emits for
pairwise-distinct original column values. -/
def xsvOutSpec {σ : Type} (gen : σ → String × σ) (st0 : σ)
    (rows : List (List String)) (column : Nat) : List (List String) :=
  (List.range rows.length).map (fun i =>
    (rows.getD i []).set column (genAt gen st0 i))

/-- The (new id, old id) log entries of the delimited substitution. -/
def xsvEntriesSpec {σ : Type} (gen : σ → String × σ) (st0 : σ)
    (rows : List (List String)) (column : Nat) : List (String × String) :=
  (List.range rows.length).map (fun i => (genAt gen st0 i, xsvOldSpec rows column i))

/-! ## Claim theorems -/

/-- C6 code_bug: the claim (and spec section 4.2) says an empty FASTA
input yields zero records and is not an error, but Seq.parse ends with an
unconditional yield of Seq.read(current_record); on zero input lines the
record is empty, next() raises StopIteration, and a StopIteration escaping
into a generator body surfaces as RuntimeError (PEP 479), so the run
fails instead of producing zero records. -/
theorem C6_empty_fasta_parse_raises :
    Seq.parse ";" [] = .error (.runtimeError "generator raised StopIteration") := rfl

/-- C2 code_bug: in replace mode on the FASTA path, a repeated original id
does not get the new id of the first occurrence: SeqReId._filter_id reads
self.seen, an attribute that does not exist (the table is the local
variable seen), so the second occurrence of the id raises AttributeError
and the run crashes instead of reusing the assigned id. -/
theorem C2_repeated_id_replace_crashes :
    SeqReId.filterId IdConverter.next (⟨"SR", 5, 0⟩ : IdConverter)
      [⟨"a", some "d1", "ACGT"⟩, ⟨"a", some "d2", "TTTT"⟩] =
    .error (.attributeError ("SeqReId object has no attribute " ++ sq ++ "seen" ++ sq)) := rfl

/-- C4 code_bug: the claim (and the lookup contract of spec section 4.4)
requires a decode lookup of a missing key to fail with the key-not-found
error, but parse_map_file builds a defaultdict(list), so get_from_map on a
missing key returns [] without raising (its except-KeyError branch is dead
code) and a FASTA decode of a record whose id is not in the map silently
emits zero output records instead of failing. -/
theorem C4_decode_missing_key_silently_drops :
    getFromMap [("SR00000", "s1")] "missing" = .ok [] ∧
    decodeSeqsRecords [("SR00000", "s1")] (.name "id") [⟨"missing", none, "ACGT"⟩] =
      .ok [] := by
  exact ⟨rfl, rfl⟩

/-- C5 code_bug: the claim requires the single-candidate accessor to fail
with the ambiguous-mapping error when a key has several candidates, but
get_from_map_single returns candidates[0]: on a map built from a dedup
mapping file in which SR0 maps to both s1 and s2, it silently returns s1.
(Its IndexError branch fires instead on the empty list of a missing key,
raising the multiple-candidates message for the wrong situation.) -/
theorem C5_ambiguous_mapping_returns_first :
    parseMapFile ["SR0\ts1\tC\td1", "SR0\ts2\tC\td2"] =
      .ok [("SR0", "s1"), ("SR0", "s2")] ∧
    getFromMapSingle [("SR0", "s1"), ("SR0", "s2")] "SR0" = .ok "s1" := by
  exact ⟨rfl, rfl⟩

/-- C8 code_bug: check_column validates the fasta selector "description",
but SeqReId.__init__ dispatches on the literal "desc", so a replace run
with selector "description" runs _filter_id: the emitted record keeps its
description "d1" unchanged and instead has its id replaced by the
generated id, contradicting the claim that exactly the description field
is substituted. -/
theorem C8_description_selector_replaces_id :
    checkColumn (some "description") "fasta" = .ok (.name "description") ∧
    SeqReId.run IdConverter.next "description" (⟨"SR", 5, 0⟩ : IdConverter)
        [⟨"s1", some "d1", "ACGT"⟩] =
      .ok ([⟨"SR00000", some "d1", "ACGT"⟩],
        .idMode [("SR00000", "s1", some "d1")], ⟨"SR", 5, 1⟩) := by
  exact ⟨rfl, rfl⟩

/-- Checksums agree on records with equal sequences (the definition reads
only the seq field). -/
theorem checksum_congr {s1 s2 : Seq} (h : s1.seq = s2.seq) :
    s1.checksum = s2.checksum := by
  simp [Seq.checksum, h]

/-- The deduplicate filter makes the same emission decisions and assigns
the same new ids on any two streams with the same sequence contents: the
emitted (id, seq) pairs agree. -/
theorem dedup_filterAux_seq_determinism {σ : Type} (gen : σ → String × σ)
    (recs : List Seq) :
    ∀ (recs' : List Seq) (seen : List (String × String)) (st : σ),
      recs.map Seq.seq = recs'.map Seq.seq →
      (SeqDeduplicated.filterIdAux gen seen st recs).1.map (fun r => (r.id, r.seq)) =
        (SeqDeduplicated.filterIdAux gen seen st recs').1.map (fun r => (r.id, r.seq)) := by
  induction recs with
  | nil =>
    intro recs' seen st h
    cases recs' with
    | nil => rfl
    | cons r' rs' => simp at h
  | cons r rs ih =>
    intro recs' seen st h
    cases recs' with
    | nil => simp at h
    | cons r' rs' =>
      simp only [List.map_cons, List.cons.injEq] at h
      have hc : r.checksum = r'.checksum := checksum_congr h.1
      simp only [SeqDeduplicated.filterIdAux, hc]
      cases hl : dlookup seen r'.checksum with
      | some nid =>
        simpa using ih rs' seen st h.2
      | none =>
        simp only [List.map_cons, h.1]
        exact congrArg (List.cons _)
          (ih rs' ((r'.checksum, (gen st).1) :: seen) (gen st).2 h.2)

/-- C10 confirmed: Seq.checksum is computed from the sequence bytes alone,
so records with equal seq fields have equal checksums regardless of id and
description, and consequently the deduplicate collapse decision (which
records are emitted, and under which generated ids) depends only on the
stream of sequence contents. -/
theorem C10_checksum_content_determinism :
    (∀ s1 s2 : Seq, s1.seq = s2.seq → s1.checksum = s2.checksum) ∧
    (∀ (σ : Type) (gen : σ → String × σ) (st : σ) (recs recs' : List Seq),
      recs.map Seq.seq = recs'.map Seq.seq →
      (SeqDeduplicated.filterId gen st recs).1.map (fun r => (r.id, r.seq)) =
        (SeqDeduplicated.filterId gen st recs').1.map (fun r => (r.id, r.seq))) := by
  refine ⟨fun s1 s2 h => checksum_congr h, fun σ gen st recs recs' h => ?_⟩
  exact dedup_filterAux_seq_determinism gen recs recs' [] st h

/-- Witness for C10 at concrete records differing only in ids and
descriptions. -/
theorem C10_checksum_content_determinism_witness :
    Seq.checksum ⟨"a", none, "ACGT"⟩ = Seq.checksum ⟨"b", some "x", "ACGT"⟩ ∧
    (SeqDeduplicated.filterId IdConverter.next (⟨"SR", 3, 0⟩ : IdConverter)
        [⟨"a", none, "ACGT"⟩, ⟨"c", some "y", "ACGT"⟩]).1.map (fun r => (r.id, r.seq)) =
      (SeqDeduplicated.filterId IdConverter.next (⟨"SR", 3, 0⟩ : IdConverter)
        [⟨"b", some "x", "ACGT"⟩, ⟨"d", none, "ACGT"⟩]).1.map (fun r => (r.id, r.seq)) :=
  ⟨C10_checksum_content_determinism.1 ⟨"a", none, "ACGT"⟩ ⟨"b", some "x", "ACGT"⟩ rfl,
   C10_checksum_content_determinism.2 IdConverter IdConverter.next ⟨"SR", 3, 0⟩
     [⟨"a", none, "ACGT"⟩, ⟨"c", some "y", "ACGT"⟩]
     [⟨"b", some "x", "ACGT"⟩, ⟨"d", none, "ACGT"⟩] rfl⟩

/-! ### Dedup-mode characterization (towards C3) -/

/-- The dedup filter logs exactly one entry per input record. -/
theorem dedup_entries_length {σ : Type} (gen : σ → String × σ) (recs : List Seq) :
    ∀ (seen : List (String × String)) (st : σ),
      (SeqDeduplicated.filterIdAux gen seen st recs).2.1.length = recs.length := by
  induction recs with
  | nil => intro seen st; rfl
  | cons r rs ih =>
    intro seen st
    simp only [SeqDeduplicated.filterIdAux]
    cases dlookup seen r.checksum with
    | some nid => simp [ih]
    | none => simp [ih]

/-- The i-th dedup log entry carries the id, checksum
and description (entries are appended in input order). -/
theorem dedup_entries_fields {σ : Type} (gen : σ → String × σ) (recs : List Seq) :
    ∀ (seen : List (String × String)) (st : σ) (i : Nat), i < recs.length →
      ((SeqDeduplicated.filterIdAux gen seen st recs).2.1.getD i entryDDflt).2 =
        ((recs.getD i seqDflt).id, Seq.checksum (recs.getD i seqDflt),
          (recs.getD i seqDflt).desc) := by
  induction recs with
  | nil => intro seen st i hi; simp at hi
  | cons r rs ih =>
    intro seen st i hi
    simp only [SeqDeduplicated.filterIdAux]
    cases dlookup seen r.checksum with
    | some nid =>
      cases i with
      | zero => simp [Seq.checksum]
      | succ i => simpa using ih seen st i (by simpa using hi)
    | none =>
      cases i with
      | zero => simp [Seq.checksum]
      | succ i =>
        simpa using ih ((r.checksum, (gen st).1) :: seen) (gen st).2 i
          (by simpa using hi)

/-- Lookup coherence: if the checksum of a record is already bound in the seen
table, its log entry carries exactly the bound id. -/
theorem dedup_lookup_coherence {σ : Type} (gen : σ → String × σ) (recs : List Seq) :
    ∀ (seen : List (String × String)) (st : σ) (i : Nat) (nid : String),
      i < recs.length →
      dlookup seen (Seq.checksum (recs.getD i seqDflt)) = some nid →
      ((SeqDeduplicated.filterIdAux gen seen st recs).2.1.getD i entryDDflt).1 = nid := by
  induction recs with
  | nil => intro seen st i nid hi; simp at hi
  | cons r rs ih =>
    intro seen st i nid hi hl
    simp only [SeqDeduplicated.filterIdAux]
    cases hs : dlookup seen r.checksum with
    | some nid' =>
      cases i with
      | zero =>
        simp only [List.getD_cons_zero] at hl ⊢
        rw [hl] at hs
        cases hs
        rfl
      | succ i =>
        simp only [List.getD_cons_succ] at hl ⊢
        exact ih seen st i nid (by simpa using hi) hl
    | none =>
      cases i with
      | zero =>
        simp only [List.getD_cons_zero] at hl
        rw [hl] at hs
        cases hs
      | succ i =>
        simp only [List.getD_cons_succ] at hl ⊢
        have hne : Seq.checksum (rs.getD i seqDflt) ≠ r.checksum := by
          intro he
          rw [he, hs] at hl
          cases hl
        have : dlookup ((r.checksum, (gen st).1) :: seen)
            (Seq.checksum (rs.getD i seqDflt)) = some nid := by
          simp only [dlookup, if_neg hne]
          exact hl
        exact ih ((r.checksum, (gen st).1) :: seen) (gen st).2 i nid
          (by simpa using hi) this

/-- Stability: a later record with the same checksum as an earlier one
logs the same new id as the earlier one. -/
theorem dedup_stability {σ : Type} (gen : σ → String × σ) (recs : List Seq) :
    ∀ (seen : List (String × String)) (st : σ) (i j : Nat),
      i < j → j < recs.length →
      Seq.checksum (recs.getD i seqDflt) = Seq.checksum (recs.getD j seqDflt) →
      ((SeqDeduplicated.filterIdAux gen seen st recs).2.1.getD j entryDDflt).1 =
        ((SeqDeduplicated.filterIdAux gen seen st recs).2.1.getD i entryDDflt).1 := by
  induction recs with
  | nil => intro seen st i j hij hj hc; simp at hj
  | cons r rs ih =>
    intro seen st i j hij hj hc
    simp only [SeqDeduplicated.filterIdAux]
    cases hs : dlookup seen r.checksum with
    | some nid =>
      cases i with
      | zero =>
        cases j with
        | zero => omega
        | succ j =>
          simp only [List.getD_cons_zero, List.getD_cons_succ] at hc ⊢
          refine dedup_lookup_coherence gen rs seen st j nid (by simpa using hj) ?_
          rw [← hc]
          exact hs
      | succ i =>
        cases j with
        | zero => omega
        | succ j =>
          simp only [List.getD_cons_succ] at hc ⊢
          exact ih seen st i j (by omega) (by simpa using hj) hc
    | none =>
      cases i with
      | zero =>
        cases j with
        | zero => omega
        | succ j =>
          simp only [List.getD_cons_zero, List.getD_cons_succ] at hc ⊢
          refine dedup_lookup_coherence gen rs ((r.checksum, (gen st).1) :: seen)
            (gen st).2 j (gen st).1 (by simpa using hj) ?_
          simp only [dlookup]
          rw [if_pos hc.symm]
      | succ i =>
        cases j with
        | zero => omega
        | succ j =>
          simp only [List.getD_cons_succ] at hc ⊢
          exact ih ((r.checksum, (gen st).1) :: seen) (gen st).2 i j (by omega)
            (by simpa using hj) hc

/-- Unfolding the generator stream one step. -/
theorem genAt_succ {σ : Type} (gen : σ → String × σ) (st : σ) (n : Nat) :
    genAt gen st (n + 1) = genAt gen (gen st).2 n := rfl

/-- The ids of the emitted records are the successive generator outputs
starting from the given state. -/
theorem dedup_out_ids {σ : Type} (gen : σ → String × σ) (recs : List Seq) :
    ∀ (seen : List (String × String)) (st : σ),
      (SeqDeduplicated.filterIdAux gen seen st recs).1.map Seq.id =
        (List.range (SeqDeduplicated.filterIdAux gen seen st recs).1.length).map
          (genAt gen st) := by
  induction recs with
  | nil => intro seen st; rfl
  | cons r rs ih =>
    intro seen st
    simp only [SeqDeduplicated.filterIdAux]
    cases hs : dlookup seen r.checksum with
    | some nid =>
      rcases hrec : SeqDeduplicated.filterIdAux gen seen st rs with ⟨out, es, stf⟩
      have IH := ih seen st
      rw [hrec] at IH
      simpa using IH
    | none =>
      rcases hrec : SeqDeduplicated.filterIdAux gen
        ((r.checksum, (gen st).1) :: seen) (gen st).2 rs with ⟨out, es, stf⟩
      have IH := ih ((r.checksum, (gen st).1) :: seen) (gen st).2
      rw [hrec] at IH
      simp only [List.map_cons, List.length_cons, List.range_succ_eq_map,
        List.map_map]
      refine congrArg₂ List.cons rfl ?_
      rw [IH]
      exact List.map_congr_left (fun i _ => (genAt_succ gen st i).symm)

/-- Output shape of the dedup filter: a record is emitted exactly when its
checksum is neither bound in the seen table nor equal to an earlier
checksum of an earlier record, and the emitted record carries the new id
of its log entry together with the description and sequence of the input
record. -/
theorem dedup_out_shape {σ : Type} (gen : σ → String × σ) (recs : List Seq) :
    ∀ (seen : List (String × String)) (st : σ),
      (SeqDeduplicated.filterIdAux gen seen st recs).1 =
        (List.range recs.length).filterMap (fun i =>
          if (dlookup seen ((recs.map Seq.checksum).getD i "")).isNone &&
              !(((recs.map Seq.checksum).take i).contains
                ((recs.map Seq.checksum).getD i "")) then
            some (Seq.mk
              ((SeqDeduplicated.filterIdAux gen seen st recs).2.1.getD i entryDDflt).1
              (recs.getD i seqDflt).desc (recs.getD i seqDflt).seq)
          else none) := by
  induction recs with
  | nil => intro seen st; rfl
  | cons r rs ih =>
    intro seen st
    simp only [SeqDeduplicated.filterIdAux]
    cases hs : dlookup seen r.checksum with
    | some nid =>
      rcases hrec : SeqDeduplicated.filterIdAux gen seen st rs with ⟨out, es, stf⟩
      have IH := ih seen st
      rw [hrec] at IH
      dsimp only at IH
      simp only [List.length_cons, List.range_succ_eq_map, List.filterMap_cons,
        List.map_cons, List.getD_cons_zero, hs, Option.isNone_some, Bool.false_and,
        Bool.false_eq_true, if_false, List.filterMap_map]
      rw [IH]
      refine List.filterMap_congr (fun i _ => ?_)
      simp only [Function.comp_apply, List.getD_cons_succ, List.take_succ_cons,
        List.contains_cons]
      generalize (rs.map Seq.checksum).getD i "" = c
      by_cases hce : c = r.checksum
      · rw [hce, hs]
        simp
      · have hbe : (c == r.checksum) = false := by simpa using hce
        simp [hbe]
    | none =>
      rcases hrec : SeqDeduplicated.filterIdAux gen
        ((r.checksum, (gen st).1) :: seen) (gen st).2 rs with ⟨out, es, stf⟩
      have IH := ih ((r.checksum, (gen st).1) :: seen) (gen st).2
      rw [hrec] at IH
      dsimp only at IH
      simp only [List.length_cons, List.range_succ_eq_map, List.filterMap_cons,
        List.map_cons, List.getD_cons_zero, hs, Option.isNone_none, Bool.true_and,
        List.take_zero, List.filterMap_map]
      rw [List.contains_nil]
      simp only [Bool.not_false, if_true, List.getD_cons_zero]
      rw [IH]
      refine congrArg₂ List.cons rfl ?_
      refine List.filterMap_congr (fun i _ => ?_)
      simp only [Function.comp_apply, List.getD_cons_succ, List.take_succ_cons,
        List.contains_cons]
      generalize (rs.map Seq.checksum).getD i "" = c
      by_cases hce : c = r.checksum
      · rw [hce]
        simp [dlookup, hs]
      · have hbe : (c == r.checksum) = false := by simpa using hce
        have hdl : dlookup ((r.checksum, (gen st).1) :: seen) c = dlookup seen c := by
          simp only [dlookup, if_neg hce]
        simp [hbe, hdl]

/-- C3 confirmed: in deduplicate mode, (1) the log receives exactly one
entry per input record, (2) in input order carrying the id of the record,
checksum and description, (3) a later record with an already-seen checksum
logs the already-assigned new id, (4) exactly the first record of each
checksum is emitted, bearing the new id of its log entry together with its own
description and sequence (later duplicates are dropped from the output),
and (5) the emitted ids are the successive freshly generated outputs of
the id generator. -/
theorem C3_dedup_collapse {σ : Type} (gen : σ → String × σ) (st : σ) (recs : List Seq) :
    (SeqDeduplicated.filterId gen st recs).2.1.length = recs.length ∧
    (∀ i, i < recs.length →
      ((SeqDeduplicated.filterId gen st recs).2.1.getD i entryDDflt).2 =
        ((recs.getD i seqDflt).id, Seq.checksum (recs.getD i seqDflt),
          (recs.getD i seqDflt).desc)) ∧
    (∀ i j, i < j → j < recs.length →
      Seq.checksum (recs.getD i seqDflt) = Seq.checksum (recs.getD j seqDflt) →
      ((SeqDeduplicated.filterId gen st recs).2.1.getD j entryDDflt).1 =
        ((SeqDeduplicated.filterId gen st recs).2.1.getD i entryDDflt).1) ∧
    (SeqDeduplicated.filterId gen st recs).1 =
      (List.range recs.length).filterMap (fun i =>
        if !(((recs.map Seq.checksum).take i).contains
            ((recs.map Seq.checksum).getD i "")) then
          some (Seq.mk
            ((SeqDeduplicated.filterId gen st recs).2.1.getD i entryDDflt).1
            (recs.getD i seqDflt).desc (recs.getD i seqDflt).seq)
        else none) ∧
    (SeqDeduplicated.filterId gen st recs).1.map Seq.id =
      (List.range (SeqDeduplicated.filterId gen st recs).1.length).map (genAt gen st) := by
  refine ⟨dedup_entries_length gen recs [] st,
    fun i hi => dedup_entries_fields gen recs [] st i hi,
    fun i j hij hj hc => dedup_stability gen recs [] st i j hij hj hc,
    ?_, dedup_out_ids gen recs [] st⟩
  refine (dedup_out_shape gen recs [] st).trans ?_
  refine List.filterMap_congr (fun i _ => ?_)
  simp only [dlookup, Option.isNone_none, Bool.true_and, SeqDeduplicated.filterId]

/-- Witness for C3 at the concrete dedup scenario of the spec (two records with
equal sequences): the duplicate's log entry reuses the first record's new
id, and the log entry fields match the inputs. -/
theorem C3_dedup_collapse_witness :
    ((SeqDeduplicated.filterId IdConverter.next (⟨"SR", 3, 0⟩ : IdConverter)
        [⟨"s1", some "d1", "ACGT"⟩, ⟨"s2", some "d2", "ACGT"⟩]).2.1.getD 1 entryDDflt).1 =
      ((SeqDeduplicated.filterId IdConverter.next (⟨"SR", 3, 0⟩ : IdConverter)
        [⟨"s1", some "d1", "ACGT"⟩, ⟨"s2", some "d2", "ACGT"⟩]).2.1.getD 0 entryDDflt).1 ∧
    ((SeqDeduplicated.filterId IdConverter.next (⟨"SR", 3, 0⟩ : IdConverter)
        [⟨"s1", some "d1", "ACGT"⟩, ⟨"s2", some "d2", "ACGT"⟩]).2.1.getD 1 entryDDflt).2 =
      ("s2", Seq.checksum ⟨"s2", some "d2", "ACGT"⟩, some "d2") :=
  ⟨(C3_dedup_collapse IdConverter.next ⟨"SR", 3, 0⟩
      [⟨"s1", some "d1", "ACGT"⟩, ⟨"s2", some "d2", "ACGT"⟩]).2.2.1 0 1
      (by decide) (by decide) rfl,
   (C3_dedup_collapse IdConverter.next ⟨"SR", 3, 0⟩
      [⟨"s1", some "d1", "ACGT"⟩, ⟨"s2", some "d2", "ACGT"⟩]).2.1 1 (by decide)⟩

/-! ### Column bounds (towards C9) -/

/-- If some row is too short for the configured column, Xsv.replace_ids
fails at the first such row with the column error naming that row. -/
theorem xsv_replace_err {σ : Type} (gen : σ → String × σ) (column : Nat)
    (sep : String) (rows : List (List String)) :
    ∀ (seen : List (String × String)) (st : σ) (r0 : List String),
      rows.find? (fun r => decide (r.length ≤ column)) = some r0 →
      Xsv.replaceIdsAux gen column sep seen st false rows =
        .error (.xsvColumnNumberError (columnErrMsg column sep r0)) := by
  induction rows with
  | nil => intro seen st r0 hf; simp at hf
  | cons row rows ih =>
    intro seen st r0 hf
    rw [List.find?_cons] at hf
    by_cases hp : row.length ≤ column
    · simp only [decide_eq_true hp] at hf
      cases hf
      have hg : row.get? column = none := List.get?_eq_none.mpr hp
      simp only [Xsv.replaceIdsAux, if_neg (by simp : ¬ false = true), hg]
    · simp only [decide_eq_false hp] at hf
      have hg : ∃ v, row.get? column = some v := by
        cases hgc : row.get? column with
        | none => exact absurd (List.get?_eq_none.mp hgc) hp
        | some v => exact ⟨v, rfl⟩
      obtain ⟨v, hv⟩ := hg
      simp only [Xsv.replaceIdsAux, hv]
      cases dlookup seen v with
      | some n =>
        simp only [ih seen st r0 hf]
        rfl
      | none =>
        simp only [ih ((v, (gen st).1) :: seen) (gen st).2 r0 hf]
        rfl

/-- If every row has the configured column, Xsv.replace_ids succeeds. -/
theorem xsv_replace_ok {σ : Type} (gen : σ → String × σ) (column : Nat)
    (sep : String) (rows : List (List String)) :
    ∀ (seen : List (String × String)) (st : σ),
      (∀ r ∈ rows, column < r.length) →
      ∃ res, Xsv.replaceIdsAux gen column sep seen st false rows = .ok res := by
  induction rows with
  | nil => intro seen st _; exact ⟨([], [], st), rfl⟩
  | cons row rows ih =>
    intro seen st hall
    have hlen : column < row.length := hall row (by simp)
    have hg : ∃ v, row.get? column = some v := by
      cases hgc : row.get? column with
      | none => exact absurd (List.get?_eq_none.mp hgc) (by omega)
      | some v => exact ⟨v, rfl⟩
    obtain ⟨v, hv⟩ := hg
    simp only [Xsv.replaceIdsAux, hv]
    cases dlookup seen v with
    | some n =>
      obtain ⟨res, hres⟩ := ih seen st (fun r hr => hall r (by simp [hr]))
      exact ⟨_, by rw [hres]; rfl⟩
    | none =>
      obtain ⟨res, hres⟩ := ih ((v, (gen st).1) :: seen) (gen st).2
        (fun r hr => hall r (by simp [hr]))
      exact ⟨_, by rw [hres]; rfl⟩

/-- C9 confirmed: encoding delimited rows raises XsvColumnNumberError
exactly on short rows: if some row has no more fields than the configured
column index, the run fails at the first such row with the error whose
message embeds that row joined with the run's separator; if every row is
long enough, the substitution never raises it. -/
theorem C9_column_bounds {σ : Type} (gen : σ → String × σ) (st : σ) (column : Nat)
    (sep : String) (rows : List (List String)) :
    (∀ r0, rows.find? (fun r => decide (r.length ≤ column)) = some r0 →
      Xsv.replaceIds gen column sep st false rows =
        .error (.xsvColumnNumberError (columnErrMsg column sep r0)) ∧
      ∃ pre post, columnErrMsg column sep r0 =
        pre ++ String.intercalate sep r0 ++ post) ∧
    ((∀ r ∈ rows, column < r.length) →
      ∃ res, Xsv.replaceIds gen column sep st false rows = .ok res) := by
  constructor
  · intro r0 hf
    refine ⟨xsv_replace_err gen column sep rows [] st r0 hf, ?_⟩
    exact ⟨"Could not access column " ++ sq ++ toString column ++ sq ++
      " in a line. The offending line was: ", ".", rfl⟩
  · intro hall
    exact xsv_replace_ok gen column sep rows [] st hall

/-- Witness for C9: a run with a short row fails naming it; a run whose
rows all carry the column succeeds. -/
theorem C9_column_bounds_witness :
    (Xsv.replaceIds IdConverter.next 1 "," (⟨"SR", 5, 0⟩ : IdConverter) false
        [["a", "b"], ["c"]] =
      .error (.xsvColumnNumberError (columnErrMsg 1 "," ["c"])) ∧
      ∃ pre post, columnErrMsg 1 "," ["c"] = pre ++ String.intercalate "," ["c"] ++ post) ∧
    (∃ res, Xsv.replaceIds IdConverter.next 1 "," (⟨"SR", 5, 0⟩ : IdConverter) false
        [["a", "b"]] = .ok res) :=
  ⟨(C9_column_bounds IdConverter.next ⟨"SR", 5, 0⟩ 1 "," [["a", "b"], ["c"]]).1
      ["c"] (by decide),
   (C9_column_bounds IdConverter.next ⟨"SR", 5, 0⟩ 1 "," [["a", "b"]]).2
      (by decide)⟩

/-! ### Flush cadence (towards C7) -/

/-- Folding string concatenation from any seed prepends the seed. -/
theorem foldl_append_str (l : List String) :
    ∀ s : String, l.foldl (fun r t => r ++ t) s = s ++ String.join l := by
  induction l with
  | nil => intro s; simp [String.join]
  | cons a l ih =>
    intro s
    have h1 : String.join (a :: l) = a ++ String.join l := by
      show (a :: l).foldl (fun r t => r ++ t) "" = a ++ String.join l
      rw [List.foldl_cons, ih ("" ++ a), String.empty_append]
    rw [List.foldl_cons, ih (s ++ a), h1, String.append_assoc]

/-- String.join distributes over list append. -/
theorem joinAppend (l1 l2 : List String) :
    String.join (l1 ++ l2) = String.join l1 ++ String.join l2 := by
  show (l1 ++ l2).foldl (fun r t => r ++ t) "" = String.join l1 ++ String.join l2
  rw [List.foldl_append]
  exact foldl_append_str l2 _

/-- renderReId distributes over list append. -/
theorem renderReId_append (l1 l2 : List EntryR) :
    renderReId (l1 ++ l2) = renderReId l1 ++ renderReId l2 := by
  simp only [renderReId, renderReIdLines, List.map_append]
  exact joinAppend _ _

/-- The generator state advances one call at a time. -/
theorem genIter_succ_back {σ : Type} (gen : σ → String × σ) (n : Nat) :
    ∀ st : σ, genIter gen st (n + 1) = (gen (genIter gen st n)).2 := by
  induction n with
  | zero => intro st; rfl
  | succ n ih => intro st; exact ih (gen st).2

/-- One step of seenSpec. -/
theorem seenSpec_succ {σ : Type} (gen : σ → String × σ) (st0 : σ) (recs : List Seq)
    (k : Nat) :
    seenSpec gen st0 recs (k + 1) =
      ((recs.getD k seqDflt).id, genAt gen st0 k) :: seenSpec gen st0 recs k := by
  simp [seenSpec, List.range_succ]

/-- A key distinct from all first-k ids is absent from the seen table. -/
theorem dlookup_seenSpec_none {σ : Type} (gen : σ → String × σ) (st0 : σ)
    (recs : List Seq) (k : Nat) (key : String)
    (h : ∀ i, i < k → (recs.getD i seqDflt).id ≠ key) :
    dlookup (seenSpec gen st0 recs k) key = none := by
  induction k with
  | zero => rfl
  | succ k ih =>
    rw [seenSpec_succ]
    simp only [dlookup]
    rw [if_neg (fun he => h k (by omega) he.symm)]
    exact ih (fun i hi => h i (by omega))

/-- String.join of a one-element list. -/
theorem join_singleton (s : String) : String.join [s] = s := String.empty_append s

/-- String.join of the empty list. -/
theorem join_nil : String.join [] = "" := rfl

/-- One encode_seqs step takes the closed-form state k to the closed-form
state k + 1 (ids pairwise distinct). -/
theorem encodeSeqsStep_spec {σ : Type} (gen : σ → String × σ) (st0 : σ)
    (dropDesc : Bool) (recs : List Seq) (k : Nat) (hk : k < recs.length)
    (hids : ∀ i j, i < j → j < recs.length →
      (recs.getD i seqDflt).id ≠ (recs.getD j seqDflt).id) :
    encodeSeqsStep gen dropDesc (encStateSpec gen st0 dropDesc recs k)
        (recs.getD k seqDflt) =
      .ok (encStateSpec gen st0 dropDesc recs (k + 1)) := by
  have hlook : dlookup (seenSpec gen st0 recs k) (recs.getD k seqDflt).id = none :=
    dlookup_seenSpec_none gen st0 recs k _ (fun i hi => hids i k hi hk)
  simp only [encodeSeqsStep, encStateSpec, hlook]
  by_cases hmod : (k + 1) % 10000 = 0
  · rw [if_neg (by omega)]
    have hkm : ¬(k % 10000 = 0 ∧ k ≠ 0) := by omega
    have hkm1 : (k + 1) % 10000 = 0 ∧ k + 1 ≠ 0 := ⟨hmod, by omega⟩
    simp only [flushedCount, if_neg hkm, if_pos hkm1, Nat.add_sub_cancel]
    rw [genIter_succ_back, seenSpec_succ]
    simp [reIdStrSpec, reIdEntrySpec, genAt]
  · rw [if_pos (by omega)]
    have hkm1 : ¬((k + 1) % 10000 = 0 ∧ k + 1 ≠ 0) := by omega
    by_cases hkm : k % 10000 = 0 ∧ k ≠ 0
    · obtain ⟨k', rfl⟩ : ∃ k', k = k' + 1 := ⟨k - 1, by omega⟩
      simp only [flushedCount, if_pos hkm, if_neg hkm1, Nat.add_sub_cancel]
      simp [List.range_succ, joinAppend, renderReId_append, join_singleton,
        join_nil, String.append_assoc, reIdStrSpec, reIdEntrySpec, genAt,
        genIter_succ_back, seenSpec_succ]
    · simp only [flushedCount, if_neg hkm, if_neg hkm1]
      simp [List.range_succ, joinAppend, renderReId_append, join_singleton,
        join_nil, String.append_assoc, reIdStrSpec, reIdEntrySpec, genAt,
        genIter_succ_back, seenSpec_succ]

/-- The encode_seqs loop state after k records is the closed-form state
(ids pairwise distinct). -/
theorem encodeSeqsLoop_spec {σ : Type} (gen : σ → String × σ) (st0 : σ)
    (dropDesc : Bool) (recs : List Seq)
    (hids : ∀ i j, i < j → j < recs.length →
      (recs.getD i seqDflt).id ≠ (recs.getD j seqDflt).id) :
    ∀ k, k ≤ recs.length →
      encodeSeqsLoop gen dropDesc st0 (recs.take k) =
        .ok (encStateSpec gen st0 dropDesc recs k) := by
  intro k
  induction k with
  | zero =>
    intro _
    simp only [List.take_zero, encodeSeqsLoop, List.foldlM_nil, encInit,
      encStateSpec, seenSpec, flushedCount, genIter]
    rfl
  | succ k ih =>
    intro hk1
    have hk : k < recs.length := by omega
    have ht : recs.take (k + 1) = recs.take k ++ [recs.getD k seqDflt] := by
      rw [List.take_succ, List.getElem?_eq_getElem hk,
        List.getD_eq_getElem recs seqDflt hk]
      rfl
    simp only [encodeSeqsLoop] at ih ⊢
    rw [ht, List.foldlM_append, ih (by omega)]
    show (do
      let s ← encodeSeqsStep gen dropDesc (encStateSpec gen st0 dropDesc recs k)
        (recs.getD k seqDflt)
      List.foldlM (encodeSeqsStep gen dropDesc) s []) = _
    rw [encodeSeqsStep_spec gen st0 dropDesc recs k hk hids]
    rfl

/-- C7 corrected: the id-map buffer is drained at every processed-record
index i with i % 10000 ≠ 0 (the truthy modulo check), plus once more at
end-of-stream — not at the multiples of 10000 the claim states.  The
closed-form trace states after every prefix pin this cadence exactly: the
buffer is empty after step k unless k is a positive multiple of 10000, in
which case exactly the entry of that record is pending; every drain empties
the buffer into the map output; the end-of-stream flush leaves the full
entry list written in input order; and flushing an empty buffer writes
nothing. -/
theorem C7_flush_cadence_amended {σ : Type} (gen : σ → String × σ) (st0 : σ)
    (dropDesc : Bool) (recs : List Seq)
    (hids : ∀ i j, i < j → j < recs.length →
      (recs.getD i seqDflt).id ≠ (recs.getD j seqDflt).id) :
    (∀ k, k ≤ recs.length →
      encodeSeqsLoop gen dropDesc st0 (recs.take k) =
        .ok (encStateSpec gen st0 dropDesc recs k)) ∧
    encodeSeqsReplace gen dropDesc st0 recs =
      .ok (String.join ((List.range recs.length).map (reIdStrSpec gen st0 dropDesc recs)),
        renderReId ((List.range recs.length).map (reIdEntrySpec gen st0 recs))) ∧
    renderReId [] = "" := by
  refine ⟨encodeSeqsLoop_spec gen st0 dropDesc recs hids, ?_, rfl⟩
  have h := encodeSeqsLoop_spec gen st0 dropDesc recs hids recs.length le_rfl
  rw [List.take_length] at h
  simp only [encodeSeqsReplace, h]
  show Except.ok (encodeSeqsFinish (encStateSpec gen st0 dropDesc recs recs.length)) = _
  by_cases hkm : recs.length % 10000 = 0 ∧ recs.length ≠ 0
  · obtain ⟨n', hn'⟩ : ∃ n', recs.length = n' + 1 :=
      ⟨recs.length - 1, by omega⟩
    rw [hn']
    simp only [encodeSeqsFinish, encStateSpec, flushedCount]
    rw [hn'] at hkm
    simp only [if_pos hkm, Nat.add_sub_cancel]
    simp [List.range_succ, joinAppend, renderReId_append, join_singleton,
      String.append_assoc]
  · simp only [encodeSeqsFinish, encStateSpec, flushedCount, if_neg hkm]
    simp [join_nil, String.append_empty, renderReId, renderReIdLines]

/-- Witness for C7 on a one-record input. -/
theorem C7_flush_cadence_amended_witness :
    (encodeSeqsLoop IdConverter.next false (⟨"SR", 5, 0⟩ : IdConverter)
        ([⟨"s1", some "d1", "ACGT"⟩].take 1) =
      .ok (encStateSpec IdConverter.next ⟨"SR", 5, 0⟩ false
        [⟨"s1", some "d1", "ACGT"⟩] 1)) ∧
    encodeSeqsReplace IdConverter.next false (⟨"SR", 5, 0⟩ : IdConverter)
        [⟨"s1", some "d1", "ACGT"⟩] =
      .ok (String.join ((List.range 1).map
            (reIdStrSpec IdConverter.next ⟨"SR", 5, 0⟩ false [⟨"s1", some "d1", "ACGT"⟩])),
        renderReId ((List.range 1).map
            (reIdEntrySpec IdConverter.next ⟨"SR", 5, 0⟩ [⟨"s1", some "d1", "ACGT"⟩]))) ∧
    renderReId [] = "" :=
  ⟨(C7_flush_cadence_amended IdConverter.next ⟨"SR", 5, 0⟩ false
      [⟨"s1", some "d1", "ACGT"⟩] (by intro i j hij hj; simp only [List.length_cons, List.length_nil] at hj; omega)).1 1 (by decide),
   (C7_flush_cadence_amended IdConverter.next ⟨"SR", 5, 0⟩ false
      [⟨"s1", some "d1", "ACGT"⟩] (by intro i j hij hj; simp only [List.length_cons, List.length_nil] at hj; omega)).2.1,
   (C7_flush_cadence_amended IdConverter.next ⟨"SR", 5, 0⟩ false
      [⟨"s1", some "d1", "ACGT"⟩] (by intro i j hij hj; simp only [List.length_cons, List.length_nil] at hj; omega)).2.2⟩

/-- Counterexample to C7 as stated: after the very first record — index 1,
neither a multiple of 10000 nor end-of-stream — the id-map buffer has
already been drained to the map output (which holds the entry) and is
empty, refuting "drained exactly at record indices that are multiples of
N and once at end-of-stream". -/
theorem C7_flush_cadence_counterexample :
    encodeSeqsLoop IdConverter.next false (⟨"SR", 5, 0⟩ : IdConverter)
        [⟨"s1", some "d1", "ACGT"⟩] =
      .ok ⟨⟨"SR", 5, 1⟩, [("s1", "SR00000")], 1, [], [],
        ">SR00000 d1\nACGT\n", "SR00000\ts1\td1\n"⟩ ∧
    ¬(1 % 10000 = 0) ∧ ("SR00000\ts1\td1\n" : String) ≠ "" :=
  ⟨rfl, by decide, by decide⟩

/-! ### Round trip (towards C1) -/

/-- Rebuilding a string from its characters is the identity. -/
theorem mk_data (s : String) : String.mk s.data = s := rfl

/-- Appending strings appends their characters. -/
theorem data_append (s t : String) : (s ++ t).data = s.data ++ t.data := rfl

/-- Python strip is the identity on a list whose first and last characters
are not whitespace. -/
theorem stripChars_eq_self (l : List Char) (hne : l ≠ [])
    (hh : isPyWs (l.headD 'x') = false) (hl : isPyWs (l.getLastD 'x') = false) :
    stripChars l = l := by
  match l, hne with
  | a :: l', _ =>
    simp only [List.headD_cons] at hh
    simp only [stripChars, List.dropWhile_cons, hh, Bool.false_eq_true, if_false]
    show dropTrailingWhile isPyWs (a :: l') = a :: l'
    unfold dropTrailingWhile
    rcases hr : (a :: l').reverse with _ | ⟨b, m⟩
    · exact absurd (List.reverse_eq_nil_iff.mp hr) (by simp)
    · have hb : b = (a :: l').getLastD 'x' := by
        have := List.head?_reverse (a :: l')
        rw [hr] at this
        simp only [List.head?_cons] at this
        rw [List.getLastD_eq_getLast?, ← this]
        rfl
      have hwb : isPyWs b = false := by rw [hb]; exact hl
      rw [List.dropWhile_cons, hwb]
      simp only [Bool.false_eq_true, if_false]
      rw [← hr, List.reverse_reverse]

/-- Splitting on tab walks past a tab-free prefix. -/
theorem splitTab_append (a : List Char) :
    ∀ b, (∀ c ∈ a, c ≠ '\t') → splitTab (a ++ '\t' :: b) = a :: splitTab b := by
  induction a with
  | nil => intro b _; simp [splitTab]
  | cons c a' ih =>
    intro b ha
    have hc : c ≠ '\t' := ha c (by simp)
    simp only [List.cons_append, splitTab, if_neg hc, List.append_eq]
    rw [ih b (fun x hx => ha x (by simp [hx]))]

/-- Splitting a tab-free list on tab yields the singleton. -/
theorem splitTab_no_tab (a : List Char) (ha : ∀ c ∈ a, c ≠ '\t') :
    splitTab a = [a] := by
  induction a with
  | nil => rfl
  | cons c a' ih =>
    have hc : c ≠ '\t' := ha c (by simp)
    simp only [splitTab, if_neg hc]
    rw [ih (fun x hx => ha x (by simp [hx]))]

/-- Tab/newline freedom gives tab freedom on the characters. -/
theorem cleanField_no_tab {s : String} (h : cleanField s) : ∀ c ∈ s.data, c ≠ '\t' := by
  intro c hc
  have := List.all_eq_true.mp h c hc
  intro he
  rw [he] at this
  simp at this

/-- headD looks into the nonempty left part of an append. -/
theorem headD_append {α : Type} {a : List α} (b : List α) (d : α) (h : a ≠ []) :
    (a ++ b).headD d = a.headD d := by
  match a, h with
  | x :: a', _ => rfl

/-- getLastD ignores its default on a nonempty list. -/
theorem getLastD_irrel {α : Type} {b : List α} (h : b ≠ []) (d d' : α) :
    b.getLastD d = b.getLastD d' := by
  rw [List.getLastD_eq_getLast?, List.getLastD_eq_getLast?]
  rcases hb : b.getLast? with _ | x
  · exact absurd (List.getLast?_eq_none_iff.mp hb) h
  · rfl

/-- getLastD looks into the nonempty right part of an append. -/
theorem getLastD_append {α : Type} (a : List α) {b : List α} (d : α) (h : b ≠ []) :
    (a ++ b).getLastD d = b.getLastD d := by
  induction a with
  | nil => rfl
  | cons x a' ih =>
    rw [List.cons_append, List.getLastD_cons]
    rw [getLastD_irrel (by simp [h] : (a' ++ b : List α) ≠ []) x d]
    exact ih

/-- A nonempty-by-isEmpty string has nonempty characters. -/
theorem data_ne_nil {s : String} (h : s.data.isEmpty = false) : s.data ≠ [] := by
  intro he
  rw [he] at h
  simp at h

/-- Split a Bool conjunction. -/
theorem band_elim {a b : Bool} (h : (a && b) = true) : a = true ∧ b = true := by
  simpa [Bool.and_eq_true] using h

/-- A rendered replace-mode map line splits back into its new id and old
id as the first two tab-separated fields of the stripped line. -/
theorem parse_reid_line (e : EntryR) (hn : cleanNewId e.1 = true)
    (ho : cleanField e.2.1 = true) (hd : cleanDescCol e.2.2 = true) :
    ∃ rest, pySplitTab (pyStrip (renderReIdLine e)) = e.1 :: e.2.1 :: rest := by
  have hn' := hn
  unfold cleanNewId at hn'
  have hn3 : cleanField e.1 = true := (band_elim hn').2
  have hn1 : (!e.1.data.isEmpty) = true := (band_elim (band_elim hn').1).1
  have hn2 : isPyWs (e.1.data.headD 'x') = false := by
    simpa using (band_elim (band_elim hn').1).2
  have hd' := hd
  unfold cleanDescCol at hd'
  have hd3 : isPyWs ((e.2.2.getD ".").data.getLastD 'x') = false := by
    simpa using (band_elim hd').2
  have hd2 : (!(e.2.2.getD ".").data.isEmpty) = true :=
    (band_elim (band_elim hd').1).2
  have hne1 : e.1.data ≠ [] := data_ne_nil (by simpa using hn1)
  have hned : (e.2.2.getD ".").data ≠ [] := data_ne_nil (by simpa using hd2)
  have hdata : (renderReIdLine e).data =
      e.1.data ++ '\t' :: (e.2.1.data ++ '\t' :: (e.2.2.getD ".").data) := by
    simp [renderReIdLine, data_append]
  have hstrip : stripChars ((renderReIdLine e).data) = (renderReIdLine e).data := by
    refine stripChars_eq_self _ (by rw [hdata]; simp [hne1]) ?_ ?_
    · rw [hdata, headD_append _ _ hne1]
      simpa using hn2
    · rw [hdata]
      rw [show e.1.data ++ '\t' :: (e.2.1.data ++ '\t' :: (e.2.2.getD ".").data) =
        (e.1.data ++ '\t' :: e.2.1.data ++ ['\t']) ++ (e.2.2.getD ".").data by simp]
      rw [getLastD_append _ _ hned]
      simpa using hd3
  refine ⟨(splitTab (e.2.2.getD ".").data).map String.mk, ?_⟩
  show (splitTab (stripChars (renderReIdLine e).data)).map String.mk = _
  rw [hstrip, hdata, splitTab_append _ _ (cleanField_no_tab hn3),
    splitTab_append _ _ (cleanField_no_tab ho)]
  simp [mk_data]

/-- parse_map_file recovers exactly the (new id, old id) pairs from the
lines flush_ids wrote for clean replace-mode entries. -/
theorem parseMapFile_renderReId (es : List EntryR)
    (h : ∀ e ∈ es, cleanNewId e.1 = true ∧ cleanField e.2.1 = true ∧
      cleanDescCol e.2.2 = true) :
    ∀ i, parseMapFileAux i (renderReIdLines es) =
      .ok (es.map (fun e => (e.1, e.2.1))) := by
  induction es with
  | nil => intro i; rfl
  | cons e es ih =>
    intro i
    obtain ⟨he1, he2, he3⟩ := h e (by simp)
    obtain ⟨rest, hline⟩ := parse_reid_line e he1 he2 he3
    show parseMapFileAux i (renderReIdLine e :: renderReIdLines es) = _
    simp only [parseMapFileAux, hline]
    rw [ih (fun x hx => h x (by simp [hx])) (i + 1)]
    rfl

/-- A rendered delimited map line splits back into exactly its new id and
old id. -/
theorem parse_xsv_line (n o : String) (hn : cleanNewId n = true)
    (ho1 : cleanField o = true) (ho2 : cleanDescCol (some o) = true) :
    pySplitTab (pyStrip (renderXsvLine (n, o))) = [n, o] := by
  have hn' := hn
  unfold cleanNewId at hn'
  have hn3 : cleanField n = true := (band_elim hn').2
  have hn1 : (!n.data.isEmpty) = true := (band_elim (band_elim hn').1).1
  have hn2 : isPyWs (n.data.headD 'x') = false := by
    simpa using (band_elim (band_elim hn').1).2
  have ho' := ho2
  unfold cleanDescCol at ho'
  have ho3 : isPyWs (o.data.getLastD 'x') = false := by
    simpa using (band_elim ho').2
  have ho4 : (!o.data.isEmpty) = true := (band_elim (band_elim ho').1).2
  have hne1 : n.data ≠ [] := data_ne_nil (by simpa using hn1)
  have hneo : o.data ≠ [] := data_ne_nil (by simpa using ho4)
  have hdata : (renderXsvLine (n, o)).data = n.data ++ '\t' :: o.data := by
    simp [renderXsvLine, data_append]
  have hstrip : stripChars ((renderXsvLine (n, o)).data) = (renderXsvLine (n, o)).data := by
    refine stripChars_eq_self _ (by rw [hdata]; simp [hne1]) ?_ ?_
    · rw [hdata, headD_append _ _ hne1]
      exact hn2
    · rw [hdata]
      rw [show n.data ++ '\t' :: o.data = (n.data ++ ['\t']) ++ o.data by simp]
      rw [getLastD_append _ _ hneo]
      exact ho3
  show (splitTab (stripChars (renderXsvLine (n, o)).data)).map String.mk = _
  rw [hstrip, hdata, splitTab_append _ _ (cleanField_no_tab hn3),
    splitTab_no_tab _ (cleanField_no_tab ho1)]
  simp [mk_data]

/-- parse_map_file recovers exactly the (new id, old id) pairs from the
lines Xsv.flush_ids wrote for clean delimited entries. -/
theorem parseMapFile_renderXsv (es : List (String × String))
    (h : ∀ e ∈ es, cleanNewId e.1 = true ∧ cleanField e.2 = true ∧
      cleanDescCol (some e.2) = true) :
    ∀ i, parseMapFileAux i (renderXsvLines es) = .ok es := by
  induction es with
  | nil => intro i; rfl
  | cons e es ih =>
    intro i
    obtain ⟨he1, he2, he3⟩ := h e (by simp)
    have hline := parse_xsv_line e.1 e.2 he1 he2 he3
    show parseMapFileAux i (renderXsvLine e :: renderXsvLines es) = _
    simp only [parseMapFileAux]
    rw [show renderXsvLine (e.1, e.2) = renderXsvLine e by rfl] at hline
    rw [hline]
    rw [ih (fun x hx => h x (by simp [hx])) (i + 1)]
    rfl

/-- lookupAll distributes over append. -/
theorem lookupAll_append (l1 l2 : List (String × String)) (k : String) :
    lookupAll (l1 ++ l2) k = lookupAll l1 k ++ lookupAll l2 k := by
  simp [lookupAll, List.filter_append]

/-- lookupAll misses every key the map does not hold. -/
theorem lookupAll_nil_of_ne (l : List (String × String)) (k : String)
    (h : ∀ p ∈ l, p.1 ≠ k) : lookupAll l k = [] := by
  unfold lookupAll
  rw [List.filter_eq_nil_iff.mpr (fun p hp => by simpa using h p hp)]
  rfl

/-- Looking up the i-th key of an indexed map with pairwise-distinct keys
returns exactly the i-th value. -/
theorem lookupAll_genmap (n : Nat) (f : Nat → String × String)
    (hinj : ∀ i j, i < n → j < n → i ≠ j → (f i).1 ≠ (f j).1) :
    ∀ i, i < n → lookupAll ((List.range n).map f) (f i).1 = [(f i).2] := by
  induction n with
  | zero => intro i hi; omega
  | succ n ih =>
    intro i hi
    rw [List.range_succ, List.map_append, lookupAll_append]
    by_cases hien : i < n
    · rw [ih (fun a b ha hb hab => hinj a b (by omega) (by omega) hab) i hien]
      have : lookupAll [f n] (f i).1 = [] :=
        lookupAll_nil_of_ne _ _ (by
          intro p hp
          simp only [List.map_singleton, List.mem_singleton] at hp
          rw [hp]
          exact hinj n i (by omega) (by omega) (by omega))
      simp only [List.map_singleton] at this ⊢
      rw [this, List.append_nil]
    · have hieq : i = n := by omega
      rw [hieq]
      have h1 : lookupAll ((List.range n).map f) (f n).1 = [] :=
        lookupAll_nil_of_ne _ _ (by
          intro p hp
          obtain ⟨j, hj, rfl⟩ := List.mem_map.mp hp
          have hjn := List.mem_range.mp hj
          exact hinj j n (by omega) (by omega) (by omega))
      rw [h1, List.nil_append]
      simp [lookupAll]

/-- Indexing each position of a list reproduces the list. -/
theorem range_map_getD {α : Type} (l : List α) (d : α) :
    (List.range l.length).map (fun i => l.getD i d) = l := by
  induction l with
  | nil => rfl
  | cons a l ih =>
    simp only [List.length_cons, List.range_succ_eq_map, List.map_cons,
      List.getD_cons_zero, List.map_map]
    refine congrArg (List.cons a) ?_
    have : ((fun i => (a :: l).getD i d) ∘ Nat.succ) = fun i => l.getD i d := by
      funext i
      simp
    rw [this, ih]

/-- Writing back the value a position already holds is the identity. -/
theorem set_getD_self {α : Type} (l : List α) :
    ∀ (i : Nat) (d : α), i < l.length → l.set i (l.getD i d) = l := by
  induction l with
  | nil => intro i d hi; simp at hi
  | cons a l ih =>
    intro i d hi
    cases i with
    | zero => rfl
    | succ i =>
      simp only [List.getD_cons_succ, List.set_cons_succ]
      exact congrArg (List.cons a) (ih i d (by simpa using hi))

/-- SeqReId._filter_id succeeds on records with pairwise-distinct ids none
of which is already in the seen table, emitting each record with the next
generated id and logging one entry per record in input order. -/
theorem reid_filterId_spec {σ : Type} (gen : σ → String × σ) (recs : List Seq) :
    ∀ (seen : List (String × String)) (st : σ),
      (∀ i, i < recs.length → dlookup seen ((recs.getD i seqDflt).id) = none) →
      (∀ i j, i < j → j < recs.length →
        (recs.getD i seqDflt).id ≠ (recs.getD j seqDflt).id) →
      SeqReId.filterIdAux gen seen st recs = .ok
        ((List.range recs.length).map (fun i =>
          Seq.mk (genAt gen st i) (recs.getD i seqDflt).desc (recs.getD i seqDflt).seq),
         (List.range recs.length).map (fun i =>
          (genAt gen st i, (recs.getD i seqDflt).id, (recs.getD i seqDflt).desc)),
         genIter gen st recs.length) := by
  induction recs with
  | nil => intro seen st _ _; rfl
  | cons r rs ih =>
    intro seen st hseen hids
    have h0 : dlookup seen r.id = none := by
      have := hseen 0 (by simp)
      simpa using this
    simp only [SeqReId.filterIdAux, h0]
    have hseen' : ∀ i, i < rs.length →
        dlookup ((r.id, (gen st).1) :: seen) ((rs.getD i seqDflt).id) = none := by
      intro i hi
      have hne : (rs.getD i seqDflt).id ≠ r.id := by
        have := hids 0 (i + 1) (by omega) (by simpa using hi)
        simpa using this.symm
      simp only [dlookup, if_neg hne]
      have := hseen (i + 1) (by simpa using hi)
      simpa using this
    have hids' : ∀ i j, i < j → j < rs.length →
        (rs.getD i seqDflt).id ≠ (rs.getD j seqDflt).id := by
      intro i j hij hj
      have := hids (i + 1) (j + 1) (by omega) (by simpa using hj)
      simpa using this
    rw [ih ((r.id, (gen st).1) :: seen) (gen st).2 hseen' hids']
    simp only [List.length_cons, List.range_succ_eq_map, List.map_cons,
      List.getD_cons_zero, List.map_map]
    rfl

/-- decode_seqs restores one record per singleton candidate list when the
selected field is the id. -/
theorem decode_id_zip (m : List (String × String)) :
    ∀ (l : List (Seq × String)),
      (∀ p ∈ l, lookupAll m p.1.id = [p.2]) →
      decodeSeqsRecords m (.name "id") (l.map (fun p => p.1)) =
        .ok (l.map (fun p => Seq.mk p.2 p.1.desc p.1.seq)) := by
  intro l
  induction l with
  | nil => intro _; rfl
  | cons p l ih =>
    intro h
    have hp := h p (by simp)
    simp only [List.map_cons, decodeSeqsRecords,
      if_neg (by decide : ¬(Column.name "id" = Column.name "description")),
      getFromMap, hp]
    rw [ih (fun q hq => h q (by simp [hq]))]
    rfl

/-- Xsv.replace_ids succeeds on rows with pairwise-distinct column values
none of which is already seen, rewriting the column to the next generated
id and logging one (new, old) pair per row. -/
theorem xsv_replaceIds_spec {σ : Type} (gen : σ → String × σ) (column : Nat)
    (sep : String) (rows : List (List String)) :
    ∀ (seen : List (String × String)) (st : σ),
      (∀ r ∈ rows, column < r.length) →
      (∀ i, i < rows.length → dlookup seen (xsvOldSpec rows column i) = none) →
      (∀ i j, i < j → j < rows.length →
        xsvOldSpec rows column i ≠ xsvOldSpec rows column j) →
      Xsv.replaceIdsAux gen column sep seen st false rows = .ok
        ((List.range rows.length).map (fun i =>
          (rows.getD i []).set column (genAt gen st i)),
         (List.range rows.length).map (fun i =>
          (genAt gen st i, xsvOldSpec rows column i)),
         genIter gen st rows.length) := by
  induction rows with
  | nil => intro seen st _ _ _; rfl
  | cons row rows ih =>
    intro seen st hb hseen holds
    have hlen : column < row.length := hb row (by simp)
    have hget : row.get? column = some (row.getD column "") := by
      rw [List.get?_eq_getElem?, List.getD_eq_getElem row "" hlen]
      exact List.getElem?_eq_getElem hlen
    have h0 : dlookup seen (row.getD column "") = none := by
      have := hseen 0 (by simp)
      simpa [xsvOldSpec] using this
    simp only [Xsv.replaceIdsAux, if_neg (by simp : ¬(false = true)), hget, h0]
    have hseen' : ∀ i, i < rows.length →
        dlookup ((row.getD column "", (gen st).1) :: seen)
          (xsvOldSpec rows column i) = none := by
      intro i hi
      have hne : xsvOldSpec rows column i ≠ row.getD column "" := by
        have := holds 0 (i + 1) (by omega) (by simpa using hi)
        simp only [xsvOldSpec, List.getD_cons_zero, List.getD_cons_succ] at this ⊢
        exact fun he => this (he.symm)
      simp only [dlookup, if_neg hne]
      have := hseen (i + 1) (by simpa using hi)
      simpa [xsvOldSpec] using this
    have holds' : ∀ i j, i < j → j < rows.length →
        xsvOldSpec rows column i ≠ xsvOldSpec rows column j := by
      intro i j hij hj
      have := holds (i + 1) (j + 1) (by omega) (by simpa using hj)
      simpa [xsvOldSpec] using this
    rw [ih ((row.getD column "", (gen st).1) :: seen) (gen st).2
      (fun r hr => hb r (by simp [hr])) hseen' holds']
    simp only [List.length_cons, List.range_succ_eq_map, List.map_cons,
      List.getD_cons_zero, List.map_map]
    show Except.ok _ = Except.ok _
    refine congrArg Except.ok ?_
    refine congrArg₂ Prod.mk ?_ (congrArg₂ Prod.mk ?_ rfl)
    · refine congrArg₂ List.cons rfl ?_
      refine List.map_congr_left (fun i _ => ?_)
      simp [xsvOldSpec, genAt_succ]
    · refine congrArg₂ List.cons rfl ?_
      refine List.map_congr_left (fun i _ => ?_)
      simp [xsvOldSpec, genAt_succ]

/-- decode_xsv restores one row per singleton candidate when every encoded
row holds its new id at the configured column. -/
theorem decode_xsv_zip (m : List (String × String)) (column : Nat) (sep : String)
    (first : Bool) :
    ∀ (l : List (List String × List String)),
      (∀ p ∈ l, ∃ v, p.1.get? column = some v ∧
        lookupAll m v = [(p.2).getD column ""] ∧
        p.1.set column ((p.2).getD column "") = p.2) →
      decodeXsvAux m column sep false first (l.map (fun p => p.1)) =
        .ok (l.map (fun p => p.2)) := by
  intro l
  induction l with
  | nil => intro _; rfl
  | cons p l ih =>
    intro h
    obtain ⟨v, hv, hl, hs⟩ := h p (by simp)
    simp only [List.map_cons, decodeXsvAux, Bool.false_and,
      if_neg (by simp : ¬(false = true)), hv, getFromMapSingle, getFromMap, hl]
    rw [ih (fun q hq => h q (by simp [hq]))]
    show Except.ok (p.1.set column (p.2.getD column "") :: l.map (fun p => p.2)) =
      Except.ok (p.2 :: l.map (fun p => p.2))
    rw [hs]

/-- C1 amended: decode ∘ encode restores the substituted field byte for
byte in replace mode for the FASTA id field and for the delimited column,
for inputs whose original field values are pairwise distinct and free of
tabs, newlines and strippable edge whitespace, and a generator whose ids
are pairwise distinct, nonempty, tab free and not starting with
whitespace: the encode run produces exactly the expected records and map
entries, parse_map_file recovers the (new, old) pairs from the written
map lines, and the decode substitution maps the encoded stream back to
the original records exactly.  (As stated the claim is false: encode has
no GFF3 branch at all — see the counterexample — and the FASTA
"description" selector substitutes the id instead, per C8.) -/
theorem C1_roundtrip_amended {σ : Type} (gen : σ → String × σ) (st0 : σ)
    (recs : List Seq) (rows : List (List String)) (column : Nat) (sep : String)
    (hA1 : ∀ j ∈ List.range recs.length, ∀ i ∈ List.range j,
      (recs.getD i seqDflt).id ≠ (recs.getD j seqDflt).id)
    (hA2 : ∀ i ∈ List.range recs.length, ∀ j ∈ List.range recs.length,
      i ≠ j → genAt gen st0 i ≠ genAt gen st0 j)
    (hA3 : ∀ i ∈ List.range recs.length, cleanNewId (genAt gen st0 i) = true)
    (hA4 : ∀ i ∈ List.range recs.length, cleanField ((recs.getD i seqDflt).id) = true)
    (hA5 : ∀ i ∈ List.range recs.length, cleanDescCol ((recs.getD i seqDflt).desc) = true)
    (hB0 : ∀ r ∈ rows, column < r.length)
    (hB1 : ∀ j ∈ List.range rows.length, ∀ i ∈ List.range j,
      xsvOldSpec rows column i ≠ xsvOldSpec rows column j)
    (hB2 : ∀ i ∈ List.range rows.length, ∀ j ∈ List.range rows.length,
      i ≠ j → genAt gen st0 i ≠ genAt gen st0 j)
    (hB3 : ∀ i ∈ List.range rows.length, cleanNewId (genAt gen st0 i) = true)
    (hB4 : ∀ i ∈ List.range rows.length, cleanField (xsvOldSpec rows column i) = true ∧
      cleanDescCol (some (xsvOldSpec rows column i)) = true) :
    (SeqReId.filterId gen st0 recs = .ok (reIdOutSpec gen st0 recs,
        reIdEntriesSpec gen st0 recs, genIter gen st0 recs.length) ∧
      parseMapFile (renderReIdLines (reIdEntriesSpec gen st0 recs)) =
        .ok (reIdPairsSpec gen st0 recs) ∧
      decodeSeqsRecords (reIdPairsSpec gen st0 recs) (.name "id")
        (reIdOutSpec gen st0 recs) = .ok recs) ∧
    (Xsv.replaceIds gen column sep st0 false rows = .ok (xsvOutSpec gen st0 rows column,
        xsvEntriesSpec gen st0 rows column, genIter gen st0 rows.length) ∧
      parseMapFile (renderXsvLines (xsvEntriesSpec gen st0 rows column)) =
        .ok (xsvEntriesSpec gen st0 rows column) ∧
      decodeXsv (xsvEntriesSpec gen st0 rows column) column sep false
        (xsvOutSpec gen st0 rows column) = .ok rows) := by
  have hA1' : ∀ i j, i < j → j < recs.length →
      (recs.getD i seqDflt).id ≠ (recs.getD j seqDflt).id := fun i j hij hj =>
    hA1 j (List.mem_range.mpr hj) i (List.mem_range.mpr hij)
  have hA2' : ∀ i j, i < recs.length → j < recs.length → i ≠ j →
      genAt gen st0 i ≠ genAt gen st0 j := fun i j hi hj hij =>
    hA2 i (List.mem_range.mpr hi) j (List.mem_range.mpr hj) hij
  refine ⟨⟨?_, ?_, ?_⟩, ?_⟩
  · exact reid_filterId_spec gen recs [] st0 (fun i _ => rfl) hA1'
  · refine parseMapFile_renderReId (reIdEntriesSpec gen st0 recs) ?_ 1
    intro e he
    obtain ⟨i, hi, rfl⟩ := List.mem_map.mp he
    exact ⟨hA3 i hi, hA4 i hi, hA5 i hi⟩
  · have hm : reIdPairsSpec gen st0 recs = (List.range recs.length).map
        (fun i => (genAt gen st0 i, (recs.getD i seqDflt).id)) := by
      unfold reIdPairsSpec reIdEntriesSpec
      rw [List.map_map]
      rfl
    have hout : reIdOutSpec gen st0 recs =
        ((List.range recs.length).map (fun i =>
          (Seq.mk (genAt gen st0 i) (recs.getD i seqDflt).desc (recs.getD i seqDflt).seq,
            (recs.getD i seqDflt).id))).map (fun p => p.1) := by
      unfold reIdOutSpec
      rw [List.map_map]
      rfl
    rw [hout]
    have hdec := decode_id_zip (reIdPairsSpec gen st0 recs)
      ((List.range recs.length).map (fun i =>
        (Seq.mk (genAt gen st0 i) (recs.getD i seqDflt).desc (recs.getD i seqDflt).seq,
          (recs.getD i seqDflt).id)))
      (by
        intro p hp
        obtain ⟨i, hi, rfl⟩ := List.mem_map.mp hp
        have hirange := List.mem_range.mp hi
        rw [hm]
        exact lookupAll_genmap recs.length
          (fun i => (genAt gen st0 i, (recs.getD i seqDflt).id))
          (fun a b ha hb hab => hA2' a b ha hb hab) i hirange)
    rw [hdec]
    rw [List.map_map]
    refine congrArg Except.ok ?_
    have : ((fun p : Seq × String => Seq.mk p.2 p.1.desc p.1.seq) ∘ (fun i =>
        (Seq.mk (genAt gen st0 i) (recs.getD i seqDflt).desc (recs.getD i seqDflt).seq,
          (recs.getD i seqDflt).id))) = fun i => recs.getD i seqDflt := by
      funext i
      rfl
    rw [this, range_map_getD]
  · have hB1' : ∀ i j, i < j → j < rows.length →
        xsvOldSpec rows column i ≠ xsvOldSpec rows column j := fun i j hij hj =>
      hB1 j (List.mem_range.mpr hj) i (List.mem_range.mpr hij)
    have hB2' : ∀ i j, i < rows.length → j < rows.length → i ≠ j →
        genAt gen st0 i ≠ genAt gen st0 j := fun i j hi hj hij =>
      hB2 i (List.mem_range.mpr hi) j (List.mem_range.mpr hj) hij
    refine ⟨?_, ?_, ?_⟩
    · exact xsv_replaceIds_spec gen column sep rows [] st0 hB0 (fun i _ => rfl) hB1'
    · refine parseMapFile_renderXsv (xsvEntriesSpec gen st0 rows column) ?_ 1
      intro e he
      obtain ⟨i, hi, rfl⟩ := List.mem_map.mp he
      exact ⟨hB3 i hi, (hB4 i hi).1, (hB4 i hi).2⟩
    · have hout : xsvOutSpec gen st0 rows column =
          ((List.range rows.length).map (fun i =>
            ((rows.getD i []).set column (genAt gen st0 i), rows.getD i []))).map
            (fun p => p.1) := by
        unfold xsvOutSpec
        rw [List.map_map]
        rfl
      show decodeXsvAux (xsvEntriesSpec gen st0 rows column) column sep false true
        (xsvOutSpec gen st0 rows column) = .ok rows
      rw [hout]
      have hdec := decode_xsv_zip (xsvEntriesSpec gen st0 rows column) column sep true
        ((List.range rows.length).map (fun i =>
          ((rows.getD i []).set column (genAt gen st0 i), rows.getD i [])))
        (by
          intro p hp
          obtain ⟨i, hi, rfl⟩ := List.mem_map.mp hp
          have hirange := List.mem_range.mp hi
          have hlen : column < (rows.getD i []).length := by
            refine hB0 (rows.getD i []) ?_
            rw [List.getD_eq_getElem rows [] hirange]
            exact List.getElem_mem hirange
          refine ⟨genAt gen st0 i, ?_, ?_, ?_⟩
          · rw [List.get?_eq_getElem?]
            exact List.getElem?_set_self (by simpa using hlen)
          · exact lookupAll_genmap rows.length
              (fun i => (genAt gen st0 i, xsvOldSpec rows column i))
              (fun a b ha hb hab => hB2' a b ha hb hab) i hirange
          · rw [List.set_set]
            exact set_getD_self (rows.getD i []) column "" hlen)
      rw [hdec]
      refine congrArg Except.ok ?_
      rw [List.map_map]
      have : ((fun p : List String × List String => p.2) ∘ (fun i =>
          ((rows.getD i []).set column (genAt gen st0 i), rows.getD i []))) =
          fun i => rows.getD i [] := by
        funext i
        rfl
      rw [this, range_map_getD]

/-- Counterexample to C1 as stated: the claim includes GFF3 seqid/id/name
among the round-trippable formats, but encode() has no gff3 branch at all:
column validation accepts the gff3 selector, then the format dispatch
falls through to the bare ValueError, so no mapping file can be produced
and decode(encode(input, map), map) is undefined for GFF3. -/
theorem C1_roundtrip_counterexample :
    checkColumn (some "seqid") "gff3" = .ok (.name "seqid") ∧
    encode IdConverter.next "gff3" (some "seqid") false false false false none "#"
        (⟨"SR", 5, 0⟩ : IdConverter) [[]] =
      .error (.valueError ("This shouldn" ++ sq ++ "t happen")) := by
  exact ⟨rfl, rfl⟩

/-- Witness for C1 on two FASTA records and two delimited rows with
distinct clean values. -/
theorem C1_roundtrip_amended_witness :
    (SeqReId.filterId IdConverter.next (⟨"SR", 3, 0⟩ : IdConverter)
        [⟨"s1", some "d1", "ACGT"⟩, ⟨"s2", some "d2", "TT"⟩] =
      .ok (reIdOutSpec IdConverter.next ⟨"SR", 3, 0⟩
            [⟨"s1", some "d1", "ACGT"⟩, ⟨"s2", some "d2", "TT"⟩],
        reIdEntriesSpec IdConverter.next ⟨"SR", 3, 0⟩
            [⟨"s1", some "d1", "ACGT"⟩, ⟨"s2", some "d2", "TT"⟩],
        genIter IdConverter.next ⟨"SR", 3, 0⟩ 2) ∧
      parseMapFile (renderReIdLines (reIdEntriesSpec IdConverter.next ⟨"SR", 3, 0⟩
          [⟨"s1", some "d1", "ACGT"⟩, ⟨"s2", some "d2", "TT"⟩])) =
        .ok (reIdPairsSpec IdConverter.next ⟨"SR", 3, 0⟩
          [⟨"s1", some "d1", "ACGT"⟩, ⟨"s2", some "d2", "TT"⟩]) ∧
      decodeSeqsRecords (reIdPairsSpec IdConverter.next ⟨"SR", 3, 0⟩
          [⟨"s1", some "d1", "ACGT"⟩, ⟨"s2", some "d2", "TT"⟩]) (.name "id")
        (reIdOutSpec IdConverter.next ⟨"SR", 3, 0⟩
          [⟨"s1", some "d1", "ACGT"⟩, ⟨"s2", some "d2", "TT"⟩]) =
        .ok [⟨"s1", some "d1", "ACGT"⟩, ⟨"s2", some "d2", "TT"⟩]) ∧
    (Xsv.replaceIds IdConverter.next 0 "," (⟨"SR", 3, 0⟩ : IdConverter) false
        [["a", "x"], ["b", "y"]] =
      .ok (xsvOutSpec IdConverter.next ⟨"SR", 3, 0⟩ [["a", "x"], ["b", "y"]] 0,
        xsvEntriesSpec IdConverter.next ⟨"SR", 3, 0⟩ [["a", "x"], ["b", "y"]] 0,
        genIter IdConverter.next ⟨"SR", 3, 0⟩ 2) ∧
      parseMapFile (renderXsvLines (xsvEntriesSpec IdConverter.next ⟨"SR", 3, 0⟩
          [["a", "x"], ["b", "y"]] 0)) =
        .ok (xsvEntriesSpec IdConverter.next ⟨"SR", 3, 0⟩ [["a", "x"], ["b", "y"]] 0) ∧
      decodeXsv (xsvEntriesSpec IdConverter.next ⟨"SR", 3, 0⟩ [["a", "x"], ["b", "y"]] 0)
        0 "," false
        (xsvOutSpec IdConverter.next ⟨"SR", 3, 0⟩ [["a", "x"], ["b", "y"]] 0) =
        .ok [["a", "x"], ["b", "y"]]) :=
  C1_roundtrip_amended IdConverter.next ⟨"SR", 3, 0⟩
    [⟨"s1", some "d1", "ACGT"⟩, ⟨"s2", some "d2", "TT"⟩]
    [["a", "x"], ["b", "y"]] 0 ","
    (by decide) (by decide) (by decide) (by decide) (by decide)
    (by decide) (by decide) (by decide) (by decide) (by decide)

end Seqrenamer
